/-
Verification of the armymarkdown transpiler core
(armymarkdown/memo_model.py) against its natural-language specification.

Strings are modelled as `List Char`.  Each definition is a direct
translation of the corresponding Python function; Python's `str.replace`,
`str.strip`, `str.find`, `str.split`, `str.join`, `str.title` and the
non-greedy `re.sub` calls used by the escaper are modelled by executable
Lean functions with the same semantics.  Fallible code (Python functions
that can return an error string, and Python exceptions caught by callers)
is modelled with `Except`/`Option`.

Two modelling devices keep every definition kernel-computable:
* recursions that consume a non-constant number of characters per step
  (`pyReplace`, `subLazy`) take a fuel argument initialised to the input
  length; each step consumes at least one character, so the fuel is never
  exhausted (`pyReplaceF_fuel` / `subLazyF_fuel` make this precise);
* Python's heterogeneous body lists (strings mixed with arbitrarily
  nested lists) are a cons-encoded tree `PyNode` — `PyNode.nil`/
  `PyNode.cons` play the role of the Python list constructors, and
  `PyNode.ofList` builds such a list-node from a Lean list.
-/
import Mathlib

set_option maxRecDepth 100000
set_option linter.unusedVariables false

/-! ## Python string primitives -/

/-- Python whitespace, as used by `str.strip` and the regex class `\s`. -/
def isPySpace (c : Char) : Bool :=
  c = ' ' || c = '\t' || c = '\n' || c = '\r' || c = '\x0b' || c = '\x0c'

/-- Python `s.strip()`: drop whitespace from both ends. -/
def pyStrip (s : List Char) : List Char :=
  ((s.dropWhile isPySpace).reverse.dropWhile isPySpace).reverse

/-- Python `s.find(t)` for a single-character needle: index of the first
occurrence, or -1 when absent. -/
def pyFind (t : Char) : List Char → Int
  | [] => -1
  | c :: rest =>
    if c = t then 0
    else
      let r := pyFind t rest
      if r = -1 then -1 else r + 1

/-- Python `s.split(sep)` for a single-character separator. -/
def pySplit (sep : Char) : List Char → List (List Char)
  | [] => [[]]
  | c :: rest =>
    if c = sep then [] :: pySplit sep rest
    else
      match pySplit sep rest with
      | h :: t => (c :: h) :: t
      | [] => [[c]]

/-- Python `s.split(sep, 1)` when `sep` is known to occur in `s`:
the parts before and after the first occurrence. -/
def pySplitFirst (sep : Char) : List Char → List Char × List Char
  | [] => ([], [])
  | c :: rest =>
    if c = sep then ([], rest)
    else
      let p := pySplitFirst sep rest
      (c :: p.1, p.2)

/-- Python `"\n".join(lines)`. -/
def pyJoinLines : List (List Char) → List Char
  | [] => []
  | l :: ls =>
    match ls with
    | [] => l
    | _ :: _ => l ++ '\n' :: pyJoinLines ls

/-- Join with an arbitrary separator (used by the table renderer model). -/
def pyJoinSep (sep : List Char) : List (List Char) → List Char
  | [] => []
  | l :: ls =>
    match ls with
    | [] => l
    | _ :: _ => l ++ sep ++ pyJoinSep sep ls

/-- Python's `pat in s` substring test. -/
def containsSub (pat : List Char) : List Char → Bool
  | [] => pat.isPrefixOf []
  | s@(_ :: rest) => pat.isPrefixOf s || containsSub pat rest

/-- Fuelled engine of Python `s.replace(old, new)`: replace all
non-overlapping occurrences, scanning left to right. -/
def pyReplaceF (old new : List Char) : Nat → List Char → List Char
  | _, [] => []
  | 0, s => s
  | fuel + 1, c :: rest =>
    if old ≠ [] ∧ old.isPrefixOf (c :: rest) then
      new ++ pyReplaceF old new fuel ((c :: rest).drop old.length)
    else
      c :: pyReplaceF old new fuel rest

/-- Python `s.replace(old, new)`.  The fuel starts at the input length and
every step consumes at least one character, so it is never exhausted. -/
def pyReplace (old new s : List Char) : List Char := pyReplaceF old new s.length s

/-- Python `s.title()` restricted to ASCII content: the first letter of
every run of letters is uppercased, the rest lowercased. -/
def pyTitleAux (prevAlpha : Bool) : List Char → List Char
  | [] => []
  | c :: rest =>
    (if c.isAlpha then (if prevAlpha then c.toLower else c.toUpper) else c) ::
      pyTitleAux c.isAlpha rest

/-- Python `s.title()`. -/
def pyTitle (s : List Char) : List Char := pyTitleAux false s

/-! ## Non-greedy regex substitution

`add_latex_escape_chars` / `remove_latex_escape_chars` use `re.sub` with
patterns of the shape `open(.*?)close` where `open`/`close` are literals
and `(.*?)` is lazy and does not cross a newline.  `findClose` scans for
the nearest literal `close` (shortest match wins, as with a lazy
quantifier) without crossing `'\n'`; `subLazy` performs the left-to-right
substitution, advancing one character when a candidate `open` has no
closing literal (as the regex engine does on a failed match). -/

def findClose (closeP : List Char) : List Char → Option (List Char × List Char)
  | [] => none
  | c :: rest =>
    if closeP.isPrefixOf (c :: rest) then some ([], (c :: rest).drop closeP.length)
    else if c = '\n' then none
    else
      match findClose closeP rest with
      | some p => some (c :: p.1, p.2)
      | none => none

/-- Fuelled engine of one `re.sub(open ++ lazy-group ++ close,
pre ++ group ++ post, s)` pass.  The opening literal is `o :: os`,
non-empty by construction. -/
def subLazyF (o : Char) (os closeP pre post : List Char) : Nat → List Char → List Char
  | _, [] => []
  | 0, s => s
  | fuel + 1, c :: rest =>
    if (o :: os).isPrefixOf (c :: rest) then
      match findClose closeP ((c :: rest).drop (o :: os).length) with
      | some p => pre ++ p.1 ++ post ++ subLazyF o os closeP pre post fuel p.2
      | none => c :: subLazyF o os closeP pre post fuel rest
    else c :: subLazyF o os closeP pre post fuel rest

/-- One lazy `re.sub` pass.  The fuel starts at the input length; every
step consumes at least one character (the open literal is non-empty), so
it is never exhausted. -/
def subLazy (o : Char) (os closeP pre post s : List Char) : List Char :=
  subLazyF o os closeP pre post s.length s

/-! ## The inline escaper (memo_model.add_latex_escape_chars /
remove_latex_escape_chars)

The Python source iterates over the dict
`{"~": "\textasciitilde ", "^": "\textasciicircum", "\": "\textbackslash"}`
in insertion order — so the tilde and caret substitutions run BEFORE the
backslash substitution — then escapes `& % $ # _ { }`, then converts
`***…***`, `**…**`, `*…*` (in that order) via non-greedy `re.sub`. -/

def add_latex_escape_chars (s : List Char) : List Char :=
  let s1 := pyReplace ("~".data) ("\\textasciitilde ".data) s
  let s2 := pyReplace ("^".data) ("\\textasciicircum".data) s1
  let s3 := pyReplace ("\\".data) ("\\textbackslash".data) s2
  let s4 := pyReplace ("&".data) ("\\&".data) s3
  let s5 := pyReplace ("%".data) ("\\%".data) s4
  let s6 := pyReplace ("$".data) ("\\$".data) s5
  let s7 := pyReplace ("#".data) ("\\#".data) s6
  let s8 := pyReplace ("_".data) ("\\_".data) s7
  let s9 := pyReplace ("\x7b".data) ("\\\x7b".data) s8
  let s10 := pyReplace ("\x7d".data) ("\\\x7d".data) s9
  let s11 := subLazy '*' ("**".data) ("***".data) ("\\underline\x7b".data) ("\x7d".data) s10
  let s12 := subLazy '*' ("*".data) ("**".data) ("\\textbf\x7b".data) ("\x7d".data) s11
  subLazy '*' [] ("*".data) ("\\textit\x7b".data) ("\x7d".data) s12

def remove_latex_escape_chars (s : List Char) : List Char :=
  let s1 := pyReplace ("\\textasciitilde ".data) ("~".data) s
  let s2 := pyReplace ("\\textasciicircum".data) ("^".data) s1
  let s3 := pyReplace ("\\textbackslash".data) ("\\".data) s2
  let s4 := pyReplace ("\\&".data) ("&".data) s3
  let s5 := pyReplace ("\\%".data) ("%".data) s4
  let s6 := pyReplace ("\\$".data) ("$".data) s5
  let s7 := pyReplace ("\\#".data) ("#".data) s6
  let s8 := pyReplace ("\\_".data) ("_".data) s7
  let s9 := pyReplace ("\\\x7b".data) ("\x7b".data) s8
  let s10 := pyReplace ("\\\x7d".data) ("\x7d".data) s9
  let s11 := subLazy '\\' ("underline\x7b".data) ("\x7d".data) ("***".data) ("***".data) s10
  let s12 := subLazy '\\' ("textbf\x7b".data) ("\x7d".data) ("**".data) ("**".data) s11
  subLazy '\\' ("textit\x7b".data) ("\x7d".data) ("*".data) ("*".data) s12

/-- The escape pipeline in the order the SPEC claims: backslash escaping
first, then the reserved characters `~ ^ & % $ # _ { }`, then the emphasis
conversions.  (Second definition for the refinement comparison of C2; the
source definition is `add_latex_escape_chars` above.) -/
def spec_escape (s : List Char) : List Char :=
  let s1 := pyReplace ("\\".data) ("\\textbackslash".data) s
  let s2 := pyReplace ("~".data) ("\\textasciitilde ".data) s1
  let s3 := pyReplace ("^".data) ("\\textasciicircum".data) s2
  let s4 := pyReplace ("&".data) ("\\&".data) s3
  let s5 := pyReplace ("%".data) ("\\%".data) s4
  let s6 := pyReplace ("$".data) ("\\$".data) s5
  let s7 := pyReplace ("#".data) ("\\#".data) s6
  let s8 := pyReplace ("_".data) ("\\_".data) s7
  let s9 := pyReplace ("\x7b".data) ("\\\x7b".data) s8
  let s10 := pyReplace ("\x7d".data) ("\\\x7d".data) s9
  let s11 := subLazy '*' ("**".data) ("***".data) ("\\underline\x7b".data) ("\x7d".data) s10
  let s12 := subLazy '*' ("*".data) ("**".data) ("\\textbf\x7b".data) ("\x7d".data) s11
  subLazy '*' [] ("*".data) ("\\textit\x7b".data) ("\x7d".data) s12

/-! ## Body nodes

Python's memo body is a plain list whose elements are strings (items and
pre-rendered tables) or nested lists.  `PyNode` cons-encodes that
untagged-union shape: `PyNode.str` is a Python string, and
`PyNode.nil`/`PyNode.cons` are the Python list constructors (so a Python
list value is a `nil`/`cons` chain whose elements may again be strings or
lists).  `isinstance(x, list)` is therefore the test `¬ x.isStr`. -/

inductive PyNode where
  | str (s : List Char)
  | nil
  | cons (x : PyNode) (xs : PyNode)
deriving DecidableEq

/-- Build a list-node from a Lean list of elements. -/
def PyNode.ofList : List PyNode → PyNode
  | [] => PyNode.nil
  | x :: xs => PyNode.cons x (PyNode.ofList xs)

/-- `isinstance(x, list)`. -/
def PyNode.isList : PyNode → Bool
  | PyNode.str _ => false
  | _ => true

/-- Python `lst.append(v)` (on a list-node; a `str` node is never the
receiver). -/
def PyNode.appendElem (v : PyNode) : PyNode → PyNode
  | PyNode.nil => PyNode.cons v PyNode.nil
  | PyNode.cons x rest => PyNode.cons x (PyNode.appendElem v rest)
  | PyNode.str s => PyNode.str s

/-- Python truthiness of a body list. -/
def PyNode.truthy : PyNode → Bool
  | PyNode.nil => false
  | _ => true

/-! ## Dangerous-pattern scan (validate_input_text)

The Python source matches ten regexes of the shape
literal (`\s*` literal)? case-insensitively.  `RTok.spaces` models `\s*`;
every pattern's token following `\s*` starts with a non-space character,
so consuming the maximal whitespace run is equivalent to the regex. -/

inductive RTok where
  | lit (cs : List Char)
  | spaces

def matchToks : List RTok → List Char → Bool
  | [], _ => true
  | RTok.lit cs :: ts, s => cs.isPrefixOf s && matchToks ts (s.drop cs.length)
  | RTok.spaces :: ts, s => matchToks ts (s.dropWhile isPySpace)

/-- `re.search`: try the token pattern at every position. -/
def searchToks (p : List RTok) : List Char → Bool
  | [] => matchToks p []
  | s@(_ :: rest) => matchToks p s || searchToks p rest

/-- The ten dangerous patterns, pre-lowercased (the search lowercases the
text, which is equivalent to `re.IGNORECASE` for these ASCII patterns),
paired with the display form `pattern.replace('\\\\', '\\')`. -/
def dangerous_patterns : List (List RTok × List Char) :=
  [ ([RTok.lit ("\\input".data), RTok.spaces, RTok.lit ("\x7b".data)], "\\input\\s*\x7b".data)
  , ([RTok.lit ("\\include".data), RTok.spaces, RTok.lit ("\x7b".data)], "\\include\\s*\x7b".data)
  , ([RTok.lit ("\\write".data), RTok.spaces, RTok.lit ("\x7b".data)], "\\write\\s*\x7b".data)
  , ([RTok.lit ("\\immediate".data)], "\\immediate".data)
  , ([RTok.lit ("\\openout".data)], "\\openout".data)
  , ([RTok.lit ("\\read".data)], "\\read".data)
  , ([RTok.lit ("\\catcode".data)], "\\catcode".data)
  , ([RTok.lit ("\\def".data), RTok.spaces, RTok.lit ("\\".data)], "\\def\\s*\\".data)
  , ([RTok.lit ("\\let".data), RTok.spaces, RTok.lit ("\\".data)], "\\let\\s*\\".data)
  , ([RTok.lit ("\\expandafter".data)], "\\expandafter".data) ]

/-- First dangerous pattern found in the (lowercased) text, if any. -/
def findDanger (text : List Char) : Option (List Char) :=
  let low := text.map Char.toLower
  match dangerous_patterns.find? (fun p => searchToks p.1 low) with
  | some p => some p.2
  | none => none

/-- memo_model.validate_input_text.  (The `isinstance(text, str)` guard is
vacuous in the typed model.) -/
def validate_input_text (text : List Char) : Option (List Char) :=
  if pyStrip text = [] then some ("Input cannot be empty".data)
  else if 50000 < text.length then
    some ("Input text too long (maximum 50,000 characters)".data)
  else
    match findDanger text with
    | some pat => some (("Potentially unsafe LaTeX command detected: ".data) ++ pat)
    | none => none

/-! ## Key tables (armymarkdown/utils.py) -/

def key_converter : List (List Char × List Char) :=
  [ ("ORGANIZATION_NAME".data, "unit_name".data)
  , ("ORGANIZATION_STREET_ADDRESS".data, "unit_street_address".data)
  , ("ORGANIZATION_CITY_STATE_ZIP".data, "unit_city_state_zip".data)
  , ("OFFICE_SYMBOL".data, "office_symbol".data)
  , ("DATE".data, "todays_date".data)
  , ("AUTHOR".data, "author_name".data)
  , ("RANK".data, "author_rank".data)
  , ("BRANCH".data, "author_branch".data)
  , ("TITLE".data, "author_title".data)
  , ("MEMO_TYPE".data, "memo_type".data)
  , ("SUBJECT".data, "subject".data)
  , ("FOR_ORGANIZATION_NAME".data, "for_unit_name".data)
  , ("FOR_ORGANIZATION_STREET_ADDRESS".data, "for_unit_street_address".data)
  , ("FOR_ORGANIZATION_CITY_STATE_ZIP".data, "for_unit_city_state_zip".data)
  , ("THRU_ORGANIZATION_NAME".data, "thru_unit_name".data)
  , ("THRU_ORGANIZATION_STREET_ADDRESS".data, "thru_unit_street_address".data)
  , ("THRU_ORGANIZATION_CITY_STATE_ZIP".data, "thru_unit_city_state_zip".data) ]

def list_keys : List (List Char) :=
  [ "for_unit_name".data, "for_unit_street_address".data, "for_unit_city_state_zip".data
  , "thru_unit_name".data, "thru_unit_street_address".data, "thru_unit_city_state_zip".data
  , "enclosures".data, "distros".data, "cfs".data ]

def optional_keys : List (List Char) :=
  [ "for_unit_name".data, "for_unit_street_address".data, "for_unit_city_state_zip".data
  , "thru_unit_name".data, "thru_unit_street_address".data, "thru_unit_city_state_zip".data
  , "suspense_date".data, "document_mark".data, "enclosures".data, "distros".data
  , "cfs".data, "todays_date".data ]

/-- Association-list lookup (Python dict read). -/
def alistGet (k : List Char) : List (List Char × List Char) → Option (List Char)
  | [] => none
  | p :: rest => if p.1 = k then some p.2 else alistGet k rest

/-! ## The parse-time dictionary -/

/-- A value in `memo_dict`: a scalar string, an accumulated list of
strings, or (for the `"text"` key) the parsed body. -/
inductive PyVal where
  | s (v : List Char)
  | l (v : List (List Char))
  | nodes (v : PyNode)
deriving DecidableEq

abbrev PyDict := List (List Char × PyVal)

def dictGet (k : List Char) : PyDict → Option PyVal
  | [] => none
  | p :: rest => if p.1 = k then some p.2 else dictGet k rest

def dictContains (k : List Char) (d : PyDict) : Bool := (dictGet k d).isSome

/-- Python dict assignment: overwrite in place, or append a new entry. -/
def dictSet (k : List Char) (v : PyVal) : PyDict → PyDict
  | [] => [(k, v)]
  | p :: rest => if p.1 = k then (k, v) :: rest else p :: dictSet k v rest

/-- Scalar read; the keys this is applied to only ever hold `.s` values
(scalar keys are never routed to the list accumulator), so the other
branches are unreachable. -/
def dictGetS (k : List Char) (d : PyDict) : Option (List Char) :=
  match dictGet k d with
  | some (PyVal.s v) => some v
  | _ => none

def dictGetL (k : List Char) (d : PyDict) : Option (List (List Char)) :=
  match dictGet k d with
  | some (PyVal.l v) => some v
  | _ => none

/-! ## Field validation (memo_model.validate_memo_fields) -/

def required_fields : List (List Char) :=
  [ "unit_name".data, "office_symbol".data, "subject".data
  , "author_name".data, "author_rank".data ]

/-- Python truthiness of a dict value. -/
def pyValTruthy : PyVal → Bool
  | PyVal.s v => ¬ v.isEmpty
  | PyVal.l v => ¬ v.isEmpty
  | PyVal.nodes v => v.truthy

/-- `len(str(value))` for the values this is applied to (always `.s` at
the call sites; the remaining branches are unreachable). -/
def pyValLen : PyVal → Nat
  | PyVal.s v => v.length
  | PyVal.l v => v.length
  | PyVal.nodes _ => 0

/-- The `for field in required_fields` loop: first error wins. -/
def checkRequired (d : PyDict) : List (List Char) → Option (List Char)
  | [] => none
  | f :: fs =>
    match dictGet f d with
    | none =>
      some (("Required field missing: ".data) ++ pyTitle (pyReplace ("_".data) (" ".data) f))
    | some v =>
      if ¬ pyValTruthy v then
        some (("Required field missing: ".data) ++ pyTitle (pyReplace ("_".data) (" ".data) f))
      else if 500 < pyValLen v then
        some (("Field too long: ".data) ++ pyTitle (pyReplace ("_".data) (" ".data) f)
          ++ (" (maximum 500 characters)".data))
      else checkRequired d fs

/-- `^[A-Z0-9-]+$` (full match, non-empty). -/
def officeSymbolOk (os : List Char) : Bool :=
  (¬ os.isEmpty) && os.all (fun c => c.isUpper || c.isDigit || c = '-')

def validate_memo_fields (d : PyDict) : Option (List Char) :=
  match checkRequired d required_fields with
  | some e => some e
  | none =>
    let subj := (dictGetS ("subject".data) d).getD []
    if subj.length < 3 then some ("Subject must be at least 3 characters long".data)
    else
      let os := pyStrip ((dictGetS ("office_symbol".data) d).getD [])
      if os.length < 2 ∨ ¬ officeSymbolOk os then
        some ("Office symbol should contain only uppercase letters, numbers, and hyphens".data)
      else none

/-! ## The MemoModel dataclass -/

/-- The `todays_date` dataclass default (`date.today().strftime("%d %B %Y")`,
captured once at module load; modelled as a fixed constant — no claim
depends on its value). -/
def todaysDateDefault : List Char := "12 October 2026".data

/-- memo_model.MemoModel.  Fields in declaration order; `None`-defaulted
optional fields are `Option`s.  The body `text` is a list-node. -/
structure MemoModel where
  unit_name : List Char
  unit_street_address : List Char
  unit_city_state_zip : List Char
  office_symbol : List Char
  subject : List Char
  text : PyNode
  author_name : List Char
  author_rank : List Char
  author_branch : List Char
  author_title : Option (List Char) := none
  memo_type : List Char := "MEMORANDUM FOR RECORD".data
  todays_date : List Char := todaysDateDefault
  for_unit_name : Option (List (List Char)) := none
  for_unit_street_address : Option (List (List Char)) := none
  for_unit_city_state_zip : Option (List (List Char)) := none
  thru_unit_name : Option (List (List Char)) := none
  thru_unit_street_address : Option (List (List Char)) := none
  thru_unit_city_state_zip : Option (List (List Char)) := none
  suspense_date : Option (List Char) := none
  document_mark : Option (List Char) := none
  enclosures : Option (List (List Char)) := none
  distros : Option (List (List Char)) := none
  cfs : Option (List (List Char)) := none
  authority : Option (List Char) := none
deriving DecidableEq

/-- The internal keys enumerated by `from_dict`'s failure path:
`set(inv_key_converter) - set(memo_dict) - optional_keys`, i.e. the values
of `key_converter` minus `optional_keys`.  Python iterates the result as a
hash set, whose order is unspecified; the model fixes the enumeration to
this list's order. -/
def fromDictCandidates : List (List Char × List Char) :=
  [ ("unit_name".data, "ORGANIZATION_NAME".data)
  , ("unit_street_address".data, "ORGANIZATION_STREET_ADDRESS".data)
  , ("unit_city_state_zip".data, "ORGANIZATION_CITY_STATE_ZIP".data)
  , ("office_symbol".data, "OFFICE_SYMBOL".data)
  , ("author_name".data, "AUTHOR".data)
  , ("author_rank".data, "RANK".data)
  , ("author_branch".data, "BRANCH".data)
  , ("author_title".data, "TITLE".data)
  , ("memo_type".data, "MEMO_TYPE".data)
  , ("subject".data, "SUBJECT".data) ]

/-- memo_model.MemoModel.from_dict.  Deduces `memo_type` from the presence
of the THRU/FOR keys (overwriting any parsed `MEMO_TYPE`), then constructs
the dataclass; if a field without a default is absent, the `TypeError`
path returns the "Missing the following keys" message instead. -/
def MemoModel.from_dict (d0 : PyDict) : Except (List Char) MemoModel :=
  let mt : List Char :=
    if dictContains ("thru_unit_name".data) d0 then "MEMORANDUM THRU".data
    else if dictContains ("for_unit_name".data) d0 then "MEMORANDUM FOR".data
    else "MEMORANDUM FOR RECORD".data
  let d := dictSet ("memo_type".data) (PyVal.s mt) d0
  let text :=
    match dictGet ("text".data) d with
    | some (PyVal.nodes v) => some v
    | _ => none
  match dictGetS ("unit_name".data) d, dictGetS ("unit_street_address".data) d,
      dictGetS ("unit_city_state_zip".data) d, dictGetS ("office_symbol".data) d,
      dictGetS ("subject".data) d, text, dictGetS ("author_name".data) d,
      dictGetS ("author_rank".data) d, dictGetS ("author_branch".data) d with
  | some un, some usa, some ucsz, some os, some subj, some txt, some an, some ar, some ab =>
    Except.ok
      { unit_name := un
        unit_street_address := usa
        unit_city_state_zip := ucsz
        office_symbol := os
        subject := subj
        text := txt
        author_name := an
        author_rank := ar
        author_branch := ab
        author_title := dictGetS ("author_title".data) d
        memo_type := mt
        todays_date := (dictGetS ("todays_date".data) d).getD todaysDateDefault
        for_unit_name := dictGetL ("for_unit_name".data) d
        for_unit_street_address := dictGetL ("for_unit_street_address".data) d
        for_unit_city_state_zip := dictGetL ("for_unit_city_state_zip".data) d
        thru_unit_name := dictGetL ("thru_unit_name".data) d
        thru_unit_street_address := dictGetL ("thru_unit_street_address".data) d
        thru_unit_city_state_zip := dictGetL ("thru_unit_city_state_zip".data) d
        suspense_date := dictGetS ("suspense_date".data) d
        document_mark := none
        enclosures := dictGetL ("enclosures".data) d
        distros := dictGetL ("distros".data) d
        cfs := dictGetL ("cfs".data) d
        authority := none }
  | _, _, _, _, _, _, _, _, _ =>
    Except.error (("Missing the following keys: ".data) ++
      pyJoinSep (",".data)
        ((fromDictCandidates.filter (fun p => ¬ dictContains p.1 d)).map (fun p => p.2)))

/-! ## Serialization (memo_model.nested_list_to_string / MemoModel.to_amd) -/

/-- memo_model.nested_list_to_string: flatten the body back to outline
text; items are unescaped, nesting adds four columns of indent.  The first
argument is a list-node (a bare `str` is never the receiver). -/
def nested_list_to_string : PyNode → Nat → List Char
  | PyNode.nil, _ => []
  | PyNode.cons (PyNode.str s) rest, ind =>
    List.replicate ind ' ' ++ ("- ".data) ++ remove_latex_escape_chars s
      ++ ('\n' :: '\n' :: []) ++ nested_list_to_string rest ind
  | PyNode.cons x rest, ind =>
    nested_list_to_string x (ind + 4) ++ nested_list_to_string rest ind
  | PyNode.str _, _ => []

/-- One `KEY = value\n` header line of the .amd serialization, emitted only
when the value is truthy (non-`None`, non-empty). -/
def amdLine (key : List Char) (v : Option (List Char)) : List Char :=
  match v with
  | none => []
  | some w => if w.isEmpty then [] else key ++ (" = ".data) ++ w ++ ['\n']

/-- A FOR/THRU recipient block: one blank-separated triple per zipped
entry.  (In Python, a present name list with an absent street/zip list
would raise `TypeError` inside `zip`; that state is unreachable from a
parsed document, and the model truncates to the shortest list as `zip`
does for lists.) -/
def amdTriples (k1 k2 k3 : List Char) (a b c : List (List Char)) : List Char :=
  pyJoinSep [] (List.zipWith3 (fun x y z =>
    ('\n' :: k1) ++ (" = ".data) ++ x ++ ('\n' :: k2) ++ (" = ".data) ++ y
      ++ ('\n' :: k3) ++ (" = ".data) ++ z ++ ['\n']) a b c)

/-- A repeated-key list block (`ENCLOSURE` / `DISTRO` / `CF`). -/
def amdListBlock (key : List Char) (v : Option (List (List Char))) : List Char :=
  match v with
  | none => []
  | some [] => []
  | some vs =>
    '\n' :: pyJoinSep [] (vs.map (fun w => key ++ (" = ".data) ++ w ++ ['\n']))

/-- memo_model.MemoModel.to_amd. -/
def MemoModel.to_amd (m : MemoModel) : List Char :=
  amdLine ("ORGANIZATION_NAME".data) (some m.unit_name)
    ++ amdLine ("ORGANIZATION_STREET_ADDRESS".data) (some m.unit_street_address)
    ++ amdLine ("ORGANIZATION_CITY_STATE_ZIP".data) (some m.unit_city_state_zip)
    ++ amdLine ("OFFICE_SYMBOL".data) (some m.office_symbol)
    ++ amdLine ("DATE".data) (some m.todays_date)
    ++ amdLine ("AUTHOR".data) (some m.author_name)
    ++ amdLine ("RANK".data) (some m.author_rank)
    ++ amdLine ("BRANCH".data) (some m.author_branch)
    ++ amdLine ("TITLE".data) m.author_title
    ++ amdLine ("SUSPENSE".data) m.suspense_date
    ++ amdLine ("AUTHORITY".data) m.authority
    ++ (match m.for_unit_name with
        | none => []
        | some [] => []
        | some a =>
          amdTriples ("FOR_ORGANIZATION_NAME".data)
            ("FOR_ORGANIZATION_STREET_ADDRESS".data)
            ("FOR_ORGANIZATION_CITY_STATE_ZIP".data)
            a (m.for_unit_street_address.getD []) (m.for_unit_city_state_zip.getD []))
    ++ (match m.thru_unit_name with
        | none => []
        | some [] => []
        | some a =>
          amdTriples ("THRU_ORGANIZATION_NAME".data)
            ("THRU_ORGANIZATION_STREET_ADDRESS".data)
            ("THRU_ORGANIZATION_CITY_STATE_ZIP".data)
            a (m.thru_unit_street_address.getD []) (m.thru_unit_city_state_zip.getD []))
    ++ amdListBlock ("ENCLOSURE".data) m.enclosures
    ++ amdListBlock ("DISTRO".data) m.distros
    ++ amdListBlock ("CF".data) m.cfs
    ++ ('\n' :: ("SUBJECT = ".data)) ++ m.subject ++ ('\n' :: '\n' :: [])
    ++ nested_list_to_string m.text 0

/-! ## Body parsing (memo_model.parse_memo_body) -/

/-- The `while isinstance(cur_list[-1], list)` continuation walk: descend
into the last element while it is a list, then append `t` to the final
string.  `none` models the `IndexError` Python raises when a visited list
is empty (in particular when no item has been emitted yet).  The receiver
is a list-node. -/
def contLast (t : List Char) : PyNode → Option PyNode
  | PyNode.nil => none
  | PyNode.cons (PyNode.str s) PyNode.nil => some (PyNode.cons (PyNode.str (s ++ t)) PyNode.nil)
  | PyNode.cons x PyNode.nil => (contLast t x).map (fun r => PyNode.cons r PyNode.nil)
  | PyNode.cons x rest => (contLast t rest).map (fun r => PyNode.cons x r)
  | PyNode.str s => none

/-- The `for i in sorted smaller levels` walk of `parse_memo_body`:
descend into the last element (when it is a list) once per previously-seen
indent level smaller than the current dash offset — stopping for good at
the first non-list last element, as the Python loop does — then append
`v`.  `none` models the `IndexError` on `proper_indent_level[-1]` when the
visited list is empty. -/
def appendDescend (v : PyNode) : Nat → PyNode → Option PyNode
  | 0, xs => some (PyNode.appendElem v xs)
  | _ + 1, PyNode.nil => none
  | _ + 1, PyNode.cons (PyNode.str s) PyNode.nil =>
    some (PyNode.cons (PyNode.str s) (PyNode.cons v PyNode.nil))
  | k + 1, PyNode.cons x PyNode.nil => (appendDescend v k x).map (fun r => PyNode.cons r PyNode.nil)
  | k + 1, PyNode.cons x rest => (appendDescend v (k + 1) rest).map (fun r => PyNode.cons x r)
  | _ + 1, PyNode.str _ => none
termination_by structural k xs => xs

/-! ### Table rendering (memo_model.process_table)

Modelled from the spec: the source's `process_table` delegates to the
external `pandas.read_table` / `tabulate` libraries (not part of this
repository's sources); per spec section 4.3 it parses the pipe-delimited
grid, drops fully-empty columns and the separator row, and emits bordered
LaTeX tabular markup containing the cell texts. -/

/-- Modelled from the spec: the cells of one pipe-delimited row —
split on `|`, strip each cell, drop the empty edge columns. -/
def tableCells (l : List Char) : List (List Char) :=
  ((pySplit '|' l).map pyStrip).filter (fun c => ¬ c.isEmpty)

/-- Modelled from the spec: `process_table` — header row, separator row
dropped, data rows, with a vertical rule per column and horizontal rules
between rows. -/
def process_table (ls : List (List Char)) : List Char :=
  match ls with
  | [] => []
  | header :: rest =>
    let hs := tableCells header
    let rows := (rest.drop 1).map tableCells
    ("\\begin\x7btabular\x7d\x7b".data)
      ++ pyJoinSep [] (hs.map (fun _ => "|l".data)) ++ ("|\x7d\n\\hline\n".data)
      ++ pyJoinSep [] ((hs :: rows).map
          (fun cs => pyJoinSep (" & ".data) cs ++ (" \\\\\n\\hline\n".data)))
      ++ ("\\end\x7btabular\x7d".data)

/-- The per-line loop state of `parse_memo_body`; `master` is a list-node. -/
structure BodyState where
  master : PyNode
  cur : Int
  levels : List Int
  table : List (List Char)
deriving DecidableEq

def initBodyState : BodyState :=
  { master := PyNode.nil, cur := 0, levels := [], table := [] }

/-- One iteration of the `for line in lines` loop of `parse_memo_body`.
Errors are the uncaught `IndexError`s (`str(e)` is
"list index out of range"), which `parse_lines` catches. -/
def parseBodyLine (st : BodyState) (line : List Char) : Except (List Char) BodyState :=
  let dash := pyFind '-' line
  if (dash = -1 ∨ 1 < line.count '-') ∧ 1 < line.count '|' then
    Except.ok { st with table := st.table ++ [line] }
  else if dash = -1 then
    match contLast (('\n' :: '\n' :: []) ++ add_latex_escape_chars (pyStrip line)) st.master with
    | some m => Except.ok { st with master := m }
    | none => Except.error ("list index out of range".data)
  else
    let st :=
      if st.table ≠ [] ∧ line.count '|' < 2 then
        { st with master := PyNode.appendElem (PyNode.str (process_table st.table)) st.master,
                  table := [] }
      else st
    let beginLine := dash + 1
    let levels := if dash ∈ st.levels then st.levels else st.levels ++ [dash]
    let lineText := add_latex_escape_chars (pyStrip (line.drop beginLine.toNat))
    let k := (levels.filter (fun x => decide (x < dash))).length
    let v :=
      if st.cur < dash then PyNode.cons (PyNode.str lineText) PyNode.nil
      else PyNode.str lineText
    match appendDescend v k st.master with
    | some m => Except.ok { master := m, cur := dash, levels := levels, table := st.table }
    | none => Except.error ("list index out of range".data)

/-- memo_model.parse_memo_body.  A table buffer still open at the end of
the input is dropped, as in the source. -/
def parse_memo_body (lines : List (List Char)) : Except (List Char) PyNode := do
  let st ← lines.foldlM parseBodyLine initBodyState
  pure st.master

/-! ## Line parsing (memo_model.parse_lines) -/

/-- The comment/blank filter: `len(line.strip()) > 0 and line.strip()[0] != "#"`. -/
def retainedLine (l : List Char) : Bool :=
  match pyStrip l with
  | [] => false
  | c :: _ => c ≠ '#'

/-- One header-region line: `KEY = value` routing.  Lines without `=` are
skipped; sub-splitting can only produce two parts when `=` is present, so
the `len(parts) != 2` guard of the source is vacuous. -/
def processHeaderLine (d : PyDict) (line : List Char) : Except (List Char) PyDict :=
  if '=' ∈ line then
    let p := pySplitFirst '=' line
    let key := pyStrip p.1
    let text := pyStrip p.2
    match alistGet key key_converter with
    | none =>
      Except.error (("ERROR: No such keyword as '".data) ++ key
        ++ ("', please remove or fix line: ".data) ++ line)
    | some ik =>
      if 1000 < text.length then
        Except.error (("ERROR: Field '".data) ++ key
          ++ ("' is too long (maximum 1000 characters)".data))
      else
        let processed := add_latex_escape_chars text
        if ik ∈ list_keys then
          Except.ok (dictSet ik (PyVal.l ((dictGetL ik d).getD [] ++ [processed])) d)
        else
          Except.ok (dictSet ik (PyVal.s processed) d)
  else Except.ok d

/-- Index of the first retained line containing the substring "SUBJECT". -/
def subjectIdx (fl : List (List Char)) : Option Nat :=
  fl.findIdx? (fun s => containsSub ("SUBJECT".data) s)

/-- memo_model.parse_lines: filter comments/blanks, validate the joined
input, locate the subject line, scan the header region, parse the body,
validate required fields, and build the model. -/
def parse_lines (file_lines : List (List Char)) : Except (List Char) MemoModel :=
  let fl := file_lines.filter retainedLine
  let total := pyJoinLines fl
  match validate_input_text total with
  | some err => Except.error (("INPUT VALIDATION ERROR: ".data) ++ err)
  | none =>
    match subjectIdx fl with
    | none =>
      Except.error ("ERROR: missing the keyword SUBJECT. Please add SUBJECT=(your subject) above the start of your memo".data)
    | some j =>
      let memoBeginLoc := j + 1
      match (fl.take memoBeginLoc).foldlM processHeaderLine ([] : PyDict) with
      | Except.error e => Except.error e
      | Except.ok d =>
        match parse_memo_body (fl.drop memoBeginLoc) with
        | Except.error e =>
          Except.error (("ERROR: Failed to parse memo body: ".data) ++ e)
        | Except.ok body =>
          let d := dictSet ("text".data) (PyVal.nodes body) d
          match validate_memo_fields d with
          | some e => Except.error (("FIELD VALIDATION ERROR: ".data) ++ e)
          | none => MemoModel.from_dict d

/-- memo_model.MemoModel.from_text: `parse_lines(text.split("\n"))`. -/
def MemoModel.from_text (text : List Char) : Except (List Char) MemoModel :=
  parse_lines (pySplit '\n' text)

/-! ## Concrete inputs and documents used by the claim theorems -/

/-- The section-8 example scenario, verbatim (header lines
ORGANIZATION_NAME, AUTHOR, RANK, BRANCH, SUBJECT, then the body). -/
def c3Input : List (List Char) :=
  [ "ORGANIZATION_NAME=Test Unit".data
  , "AUTHOR=Jane Doe".data
  , "RANK=CPT".data
  , "BRANCH=EN".data
  , "SUBJECT=Test Subject".data
  , "".data
  , "- Top level item".data
  , "    - Nested item one".data
  , "    - Nested item two".data
  , "- Second top level item".data ]

/-- The section-8 example extended with the fields `validate_memo_fields`
and the dataclass constructor additionally require (street address,
city/state/zip, and a well-formed OFFICE_SYMBOL). -/
def c3InputFixed : List (List Char) :=
  [ "ORGANIZATION_NAME=Test Unit".data
  , "ORGANIZATION_STREET_ADDRESS=1 Main St".data
  , "ORGANIZATION_CITY_STATE_ZIP=City, ST 00000".data
  , "OFFICE_SYMBOL=TST".data
  , "AUTHOR=Jane Doe".data
  , "RANK=CPT".data
  , "BRANCH=EN".data
  , "SUBJECT=Test Subject".data
  , "".data
  , "- Top level item".data
  , "    - Nested item one".data
  , "    - Nested item two".data
  , "- Second top level item".data ]

/-- The body the section-8 scenario promises: three root entries, the
middle one a group with exactly two children. -/
def c3ExpectedBody : PyNode :=
  PyNode.ofList
    [ PyNode.str ("Top level item".data)
    , PyNode.ofList [PyNode.str ("Nested item one".data), PyNode.str ("Nested item two".data)]
    , PyNode.str ("Second top level item".data) ]

/-- The document `c3InputFixed` parses to. -/
def c3Doc : MemoModel :=
  { unit_name := "Test Unit".data
    unit_street_address := "1 Main St".data
    unit_city_state_zip := "City, ST 00000".data
    office_symbol := "TST".data
    subject := "Test Subject".data
    text := c3ExpectedBody
    author_name := "Jane Doe".data
    author_rank := "CPT".data
    author_branch := "EN".data }

/-- A complete, valid input whose SUBJECT value contains `&`. -/
def c5Input : List (List Char) :=
  [ "ORGANIZATION_NAME=Test Unit".data
  , "ORGANIZATION_STREET_ADDRESS=1 Main St".data
  , "ORGANIZATION_CITY_STATE_ZIP=City, ST 00000".data
  , "OFFICE_SYMBOL=TST".data
  , "AUTHOR=Jane Doe".data
  , "RANK=CPT".data
  , "BRANCH=EN".data
  , "SUBJECT=Tea & Crumpets".data
  , "- item one".data ]

/-- The document `c5Input` parses to (subject stored escaped). -/
def c5Doc : MemoModel :=
  { unit_name := "Test Unit".data
    unit_street_address := "1 Main St".data
    unit_city_state_zip := "City, ST 00000".data
    office_symbol := "TST".data
    subject := "Tea \\& Crumpets".data
    text := PyNode.ofList [PyNode.str ("item one".data)]
    author_name := "Jane Doe".data
    author_rank := "CPT".data
    author_branch := "EN".data }

/-- The document re-parsing `c5Doc.to_amd()` yields: the already-escaped
subject is escaped a second time. -/
def c5Redoc : MemoModel :=
  { c5Doc with subject := "Tea \\textbackslash\\& Crumpets".data }

/-- A complete input missing only AUTHOR (SUBJECT present). -/
def c7Input : List (List Char) :=
  [ "ORGANIZATION_NAME=Test Unit".data
  , "ORGANIZATION_STREET_ADDRESS=1 Main St".data
  , "ORGANIZATION_CITY_STATE_ZIP=City, ST 00000".data
  , "OFFICE_SYMBOL=TST".data
  , "RANK=CPT".data
  , "BRANCH=EN".data
  , "SUBJECT=Test Subject".data
  , "- item one".data ]

/-- A complete input (TITLE included) missing only BRANCH — a required
field that is not among the five checked by `validate_memo_fields`. -/
def c7InputBranch : List (List Char) :=
  [ "ORGANIZATION_NAME=Test Unit".data
  , "ORGANIZATION_STREET_ADDRESS=1 Main St".data
  , "ORGANIZATION_CITY_STATE_ZIP=City, ST 00000".data
  , "OFFICE_SYMBOL=TST".data
  , "AUTHOR=Jane Doe".data
  , "RANK=CPT".data
  , "TITLE=Leader".data
  , "SUBJECT=Test Subject".data
  , "- item one".data ]

/-- A valid header whose body consists of a single continuation line (no
dash, not a table row) with no prior item. -/
def c8Input : List (List Char) :=
  [ "ORGANIZATION_NAME=Test Unit".data
  , "ORGANIZATION_STREET_ADDRESS=1 Main St".data
  , "ORGANIZATION_CITY_STATE_ZIP=City, ST 00000".data
  , "OFFICE_SYMBOL=TST".data
  , "AUTHOR=Jane Doe".data
  , "RANK=CPT".data
  , "BRANCH=EN".data
  , "SUBJECT=Test Subject".data
  , "no dash here".data ]

/-- `c8Input` with the continuation line removed. -/
def c8InputWithout : List (List Char) :=
  [ "ORGANIZATION_NAME=Test Unit".data
  , "ORGANIZATION_STREET_ADDRESS=1 Main St".data
  , "ORGANIZATION_CITY_STATE_ZIP=City, ST 00000".data
  , "OFFICE_SYMBOL=TST".data
  , "AUTHOR=Jane Doe".data
  , "RANK=CPT".data
  , "BRANCH=EN".data
  , "SUBJECT=Test Subject".data ]

/-- The document `c8InputWithout` parses to (empty body). -/
def c8Doc : MemoModel :=
  { unit_name := "Test Unit".data
    unit_street_address := "1 Main St".data
    unit_city_state_zip := "City, ST 00000".data
    office_symbol := "TST".data
    subject := "Test Subject".data
    text := PyNode.nil
    author_name := "Jane Doe".data
    author_rank := "CPT".data
    author_branch := "EN".data }

/-! ## Proof-support definitions -/

/-- The `normal_chars` of the escaper. -/
def normalChars : List Char := ['&', '%', '$', '#', '_', '\x7b', '\x7d']

/-- The per-character effect of the reserved-character escaping passes on
an input free of `~`, `^` and backslashes. -/
def escChar (c : Char) : List Char :=
  if c ∈ normalChars then ['\\', c] else [c]

/-- The family of plain documents for the amended C5 round-trip: the nine
scalar header fields, all optional fields absent, the default memo type,
and a flat body of item strings. -/
def c5Family (un usa ucsz os subj an ar ab dt : List Char)
    (ts : List (List Char)) : MemoModel :=
  { unit_name := un
    unit_street_address := usa
    unit_city_state_zip := ucsz
    office_symbol := os
    subject := subj
    text := PyNode.ofList (ts.map PyNode.str)
    author_name := an
    author_rank := ar
    author_branch := ab
    todays_date := dt }

/-- The characters the escaper rewrites; a string avoiding them (and the
markup openers) is a fixed point of `add_latex_escape_chars`. -/
def escaperChars : List Char :=
  ['~', '^', '\\', '&', '%', '$', '#', '_', '\x7b', '\x7d', '*']

/-! ## C1 / C2: counterexamples -/

/-- C1 (counterexample): the escape/unescape round-trip fails on the
one-character string "~" — which contains no literal LaTeX escape
sequence and no asterisk-markup collision: the escaper rewrites `~` to
`\textasciitilde ` and only afterwards escapes backslashes, so the result
unescapes to `\textasciitilde ` rather than back to `~`. -/
theorem c1_counterexample :
    remove_latex_escape_chars (add_latex_escape_chars ("~".data)) ≠ ("~".data) ∧
      remove_latex_escape_chars (add_latex_escape_chars ("~".data))
        = ("\\textasciitilde ".data) := by
  exact ⟨by decide, by rfl⟩

/-- C2 (counterexample): on the input "~" the source escaper differs from
the pipeline the claim describes (backslash substitution first): the code
re-escapes the backslash introduced by its tilde substitution. -/
theorem c2_counterexample :
    add_latex_escape_chars ("~".data) ≠ spec_escape ("~".data) ∧
      add_latex_escape_chars ("~".data) = ("\\textbackslashtextasciitilde ".data) ∧
      spec_escape ("~".data) = ("\\textasciitilde ".data) := by
  exact ⟨by decide, by rfl, by rfl⟩

/-! ## C3: the section-8 example scenario -/

/-- C3 (counterexample): parsing the section-8 example input does not
yield a Document at all — `validate_memo_fields` requires OFFICE_SYMBOL
(and the dataclass also requires the address fields), so `parse_lines`
returns the missing-office-symbol error string. -/
theorem c3_counterexample :
    parse_lines c3Input
      = Except.error ("FIELD VALIDATION ERROR: Required field missing: Office Symbol".data) := by
  rfl

/-- C3 (amended): with the required OFFICE_SYMBOL (and address) header
lines added, the section-8 example parses to a Document whose body is
exactly [Item "Top level item", Group [Item "Nested item one",
Item "Nested item two"], Item "Second top level item"] — three root
entries, exactly one of which is a group, with two children. -/
theorem c3_amended :
    parse_lines c3InputFixed = Except.ok c3Doc ∧ c3Doc.text = c3ExpectedBody := by
  exact ⟨by rfl, by rfl⟩

/-! ## C5: serialize-then-parse round trip -/

/-- C5 (counterexample): a valid input whose subject contains `&` parses
successfully, but re-parsing `to_amd()` of the result yields a document
whose subject differs (the stored subject is escaped a second time), so
the round trip fails on header fields. -/
theorem c5_counterexample :
    parse_lines c5Input = Except.ok c5Doc ∧
      MemoModel.from_text (MemoModel.to_amd c5Doc) = Except.ok c5Redoc ∧
      c5Redoc.subject ≠ c5Doc.subject := by
  refine ⟨by rfl, by rfl, by decide⟩

/-! ## C7: missing-required-field errors -/

/-- C7 (counterexample): input missing AUTHOR (with SUBJECT present)
returns the error "FIELD VALIDATION ERROR: Required field missing:
Author Name", whose text does NOT include the external key name
"AUTHOR" (the field is reported by its internal name in title case,
and only the first of the five validated fields is reported). -/
theorem c7_counterexample :
    parse_lines c7Input
        = Except.error ("FIELD VALIDATION ERROR: Required field missing: Author Name".data) ∧
      containsSub ("AUTHOR".data)
        ("FIELD VALIDATION ERROR: Required field missing: Author Name".data) = false := by
  exact ⟨by rfl, by rfl⟩

/-- C7 (amended): missing non-optional fields always produce an error
value, never a partial Document, but in two tiers: a field among the five
checked by `validate_memo_fields` (here AUTHOR) is reported alone, by its
internal field name in title case ("Author Name"); only when those five
are present does the dataclass-construction path report remaining missing
fields (here BRANCH) by external key name in a "Missing the following
keys" enumeration. -/
theorem c7_amended :
    parse_lines c7Input
        = Except.error ("FIELD VALIDATION ERROR: Required field missing: Author Name".data) ∧
      parse_lines c7InputBranch
        = Except.error ("Missing the following keys: BRANCH".data) := by
  exact ⟨by rfl, by rfl⟩

/-! ## C8: continuation line with no prior item -/

/-- C8 (counterexample): a continuation line appearing before any item is
NOT a no-op: `parse_lines` returns the caught-IndexError message, whereas
the same input without that line parses successfully. -/
theorem c8_counterexample :
    parse_lines c8Input
        = Except.error ("ERROR: Failed to parse memo body: list index out of range".data) ∧
      parse_lines c8InputWithout = Except.ok c8Doc := by
  exact ⟨by rfl, by rfl⟩

/-! ## General lemmas: eliminating the fuel -/

theorem pyReplaceF_fuel (old new : List Char) :
    ∀ (f g : Nat) (s : List Char), s.length ≤ f → s.length ≤ g →
      pyReplaceF old new f s = pyReplaceF old new g s := by
  intro f
  induction f with
  | zero =>
    intro g s hf hg
    have hs : s = [] := List.eq_nil_of_length_eq_zero (Nat.le_zero.mp hf)
    subst hs
    cases g <;> rfl
  | succ f ih =>
    intro g s hf hg
    match s with
    | [] => cases g <;> rfl
    | c :: rest =>
      match g with
      | 0 => simp at hg
      | g + 1 =>
        simp only [pyReplaceF]
        split
        · next h =>
          congr 1
          have hol : 0 < old.length := List.length_pos.mpr h.1
          apply ih
          · simp only [List.length_drop, List.length_cons]
            simp only [List.length_cons] at hf
            omega
          · simp only [List.length_drop, List.length_cons]
            simp only [List.length_cons] at hg
            omega
        · congr 1
          apply ih
          · simp only [List.length_cons] at hf; omega
          · simp only [List.length_cons] at hg; omega

theorem pyReplace_nil (old new : List Char) : pyReplace old new [] = [] := rfl

theorem pyReplace_cons (old new : List Char) (c : Char) (rest : List Char) :
    pyReplace old new (c :: rest) =
      if old ≠ [] ∧ old.isPrefixOf (c :: rest) then
        new ++ pyReplace old new ((c :: rest).drop old.length)
      else c :: pyReplace old new rest := by
  show pyReplaceF old new (c :: rest).length (c :: rest) = _
  simp only [List.length_cons, pyReplaceF]
  split
  · next h =>
    congr 1
    have hol : 0 < old.length := List.length_pos.mpr h.1
    apply pyReplaceF_fuel
    · simp only [List.length_drop, List.length_cons]; omega
    · exact le_rfl
  · rfl

theorem findClose_length {closeP s mid r} (h : findClose closeP s = some (mid, r)) :
    r.length ≤ s.length := by
  induction s generalizing mid r with
  | nil => simp [findClose] at h
  | cons c rest ih =>
    rw [findClose] at h
    split at h
    · simp only [Option.some.injEq, Prod.mk.injEq] at h
      rw [← h.2]
      simp
    · split at h
      · exact absurd h (by simp)
      · revert h
        match hfc : findClose closeP rest with
        | none => intro h; exact absurd h (by simp)
        | some p =>
          intro h
          simp only [Option.some.injEq, Prod.mk.injEq] at h
          have hp : findClose closeP rest = some (p.1, p.2) := by rw [hfc]
          have := ih hp
          rw [← h.2]
          simp only [List.length_cons]
          omega

theorem subLazyF_id_of_head_not_mem (o : Char) (os closeP pre post : List Char) :
    ∀ (f : Nat) (s : List Char), o ∉ s → subLazyF o os closeP pre post f s = s := by
  intro f
  induction f with
  | zero => intro s h; cases s <;> rfl
  | succ f ih =>
    intro s h
    match s with
    | [] => rfl
    | c :: rest =>
      have hco : ¬ (o = c) := fun he => h (he ▸ List.mem_cons_self c rest)
      have hpre : (o :: os).isPrefixOf (c :: rest) = false := by
        simp [List.isPrefixOf, hco]
      simp only [subLazyF, hpre, Bool.false_eq_true, if_false]
      rw [ih rest (fun hm => h (List.mem_cons_of_mem c hm))]

/-- A lazy substitution pass whose opening literal starts with a character
absent from the input leaves the input unchanged. -/
theorem subLazy_id_of_head_not_mem {o : Char} {s : List Char} (os closeP pre post : List Char)
    (h : o ∉ s) : subLazy o os closeP pre post s = s :=
  subLazyF_id_of_head_not_mem o os closeP pre post s.length s h

/-! ## General lemmas: single-character replacement as flatMap -/

theorem pyReplaceF_single (c0 : Char) (r : List Char) :
    ∀ (f : Nat) (s : List Char), s.length ≤ f →
      pyReplaceF [c0] r f s = s.flatMap (fun c => if c = c0 then r else [c]) := by
  intro f
  induction f with
  | zero =>
    intro s hf
    have hs : s = [] := List.eq_nil_of_length_eq_zero (Nat.le_zero.mp hf)
    subst hs; rfl
  | succ f ih =>
    intro s hf
    match s with
    | [] => rfl
    | c :: rest =>
      simp only [List.length_cons] at hf
      by_cases hc : c = c0
      · subst hc
        have h1 : pyReplaceF [c] r (f + 1) (c :: rest)
            = r ++ pyReplaceF [c] r f ((c :: rest).drop ([c] : List Char).length) := by
          rw [pyReplaceF, if_pos ⟨List.cons_ne_nil c [], by simp [List.isPrefixOf]⟩]
        rw [h1]
        simp only [List.length_cons, List.length_nil, List.drop_succ_cons, List.drop_zero]
        rw [ih rest (by omega)]
        simp [List.flatMap_cons]
      · have h1 : pyReplaceF [c0] r (f + 1) (c :: rest)
            = c :: pyReplaceF [c0] r f rest := by
          rw [pyReplaceF, if_neg]
          intro hcon
          have h2 := hcon.2
          simp only [List.isPrefixOf, Bool.and_true, beq_iff_eq] at h2
          exact hc h2.symm
        rw [h1, ih rest (by omega)]
        simp [List.flatMap_cons, if_neg hc]

theorem pyReplace_single (c0 : Char) (r s : List Char) :
    pyReplace [c0] r s = s.flatMap (fun c => if c = c0 then r else [c]) :=
  pyReplaceF_single c0 r s.length s le_rfl

theorem flatMap_congr_mem {α β : Type} (f g : α → List β) :
    ∀ (s : List α), (∀ c ∈ s, f c = g c) → s.flatMap f = s.flatMap g := by
  intro s
  induction s with
  | nil => intro _; rfl
  | cons c rest ih =>
    intro h
    simp only [List.flatMap_cons]
    rw [h c (List.mem_cons_self c rest), ih (fun x hx => h x (List.mem_cons_of_mem c hx))]

theorem flatMap_id_chars : ∀ (s : List Char), s.flatMap (fun c => [c]) = s := by
  intro s
  induction s with
  | nil => rfl
  | cons c rest ih => simp only [List.flatMap_cons, ih]; rfl

/-- Replacing a single absent character changes nothing. -/
theorem pyReplace_single_id {c0 : Char} {s : List Char} (r : List Char) (h : c0 ∉ s) :
    pyReplace [c0] r s = s := by
  rw [pyReplace_single]
  have hcong : ∀ c ∈ s, (if c = c0 then r else [c]) = [c] := by
    intro c hc
    rw [if_neg]
    intro he
    subst he
    exact h hc
  rw [flatMap_congr_mem _ _ s hcong, flatMap_id_chars]

theorem mem_pyReplaceF {old new : List Char} {a : Char} :
    ∀ {f : Nat} {s : List Char}, a ∈ pyReplaceF old new f s → a ∈ s ∨ a ∈ new := by
  intro f
  induction f with
  | zero =>
    intro s h
    cases s with
    | nil => simp [pyReplaceF] at h
    | cons c rest => exact Or.inl h
  | succ f ih =>
    intro s h
    match s with
    | [] => simp [pyReplaceF] at h
    | c :: rest =>
      rw [pyReplaceF] at h
      split at h
      · rcases List.mem_append.mp h with hn | hr
        · exact Or.inr hn
        · rcases ih hr with hs | hn
          · exact Or.inl (List.mem_of_mem_drop hs)
          · exact Or.inr hn
      · rcases List.mem_cons.mp h with he | hr
        · exact Or.inl (he ▸ List.mem_cons_self c rest)
        · rcases ih hr with hs | hn
          · exact Or.inl (List.mem_cons_of_mem c hs)
          · exact Or.inr hn

theorem mem_pyReplace {old new s : List Char} {a : Char}
    (h : a ∈ pyReplace old new s) : a ∈ s ∨ a ∈ new :=
  mem_pyReplaceF h

/-- Characters of the escaped form: a backslash, or a character of the
input. -/
theorem mem_flatMap_escChar {s : List Char} {a : Char}
    (h : a ∈ s.flatMap escChar) : a = '\\' ∨ a ∈ s := by
  rcases List.mem_flatMap.mp h with ⟨c, hc, ha⟩
  by_cases hm : c ∈ normalChars
  · simp only [escChar, if_pos hm] at ha
    rcases List.mem_cons.mp ha with h1 | h1
    · exact Or.inl h1
    · simp only [List.mem_singleton] at h1
      subst h1
      exact Or.inr hc
  · simp only [escChar, if_neg hm, List.mem_singleton] at ha
    subst ha
    exact Or.inr hc

/-! ## The escaper on inputs free of tilde, caret, backslash and asterisk -/

/-- The seven reserved-character passes act per character. -/
theorem chain7_eq_flatMap (s : List Char) (hbs : '\\' ∉ s) :
    pyReplace ['\x7d'] ['\\', '\x7d']
      (pyReplace ['\x7b'] ['\\', '\x7b']
        (pyReplace ['_'] ['\\', '_']
          (pyReplace ['#'] ['\\', '#']
            (pyReplace ['$'] ['\\', '$']
              (pyReplace ['%'] ['\\', '%']
                (pyReplace ['&'] ['\\', '&'] s))))))
      = s.flatMap escChar := by
  rw [pyReplace_single, pyReplace_single, pyReplace_single, pyReplace_single,
    pyReplace_single, pyReplace_single, pyReplace_single]
  rw [List.flatMap_assoc, List.flatMap_assoc, List.flatMap_assoc, List.flatMap_assoc,
    List.flatMap_assoc, List.flatMap_assoc]
  apply flatMap_congr_mem
  intro c hc
  have hcbs : c ≠ '\\' := fun he => hbs (he ▸ hc)
  by_cases h1 : c = '&'
  · subst h1; rfl
  by_cases h2 : c = '%'
  · subst h2; rfl
  by_cases h3 : c = '$'
  · subst h3; rfl
  by_cases h4 : c = '#'
  · subst h4; rfl
  by_cases h5 : c = '_'
  · subst h5; rfl
  by_cases h6 : c = '\x7b'
  · subst h6; rfl
  by_cases h7 : c = '\x7d'
  · subst h7; rfl
  have hmem : c ∉ normalChars := by
    simp only [normalChars, List.mem_cons, List.mem_singleton]
    tauto
  simp only [List.flatMap_cons, List.flatMap_nil, List.append_nil,
    if_neg h1, if_neg h2, if_neg h3, if_neg h4, if_neg h5, if_neg h6, if_neg h7,
    escChar, if_neg hmem]

/-- On input free of `~`, `^`, `\` and `*`, the escaper is exactly the
per-character reserved-character map. -/
theorem add_latex_eq_flatMap (s : List Char)
    (h : ∀ c ∈ s, c ≠ '~' ∧ c ≠ '^' ∧ c ≠ '\\' ∧ c ≠ '*') :
    add_latex_escape_chars s = s.flatMap escChar := by
  have ht : '~' ∉ s := fun hm => (h _ hm).1 rfl
  have hcar : '^' ∉ s := fun hm => (h _ hm).2.1 rfl
  have hbs : '\\' ∉ s := fun hm => (h _ hm).2.2.1 rfl
  have hst : '*' ∉ s := fun hm => (h _ hm).2.2.2 rfl
  have hstar2 : '*' ∉ s.flatMap escChar := by
    intro hm
    rcases mem_flatMap_escChar hm with h1 | h1
    · exact absurd h1 (by decide)
    · exact hst h1
  simp only [add_latex_escape_chars]
  rw [pyReplace_single_id _ ht, pyReplace_single_id _ hcar, pyReplace_single_id _ hbs]
  rw [chain7_eq_flatMap s hbs]
  rw [subLazy_id_of_head_not_mem _ _ _ _ hstar2, subLazy_id_of_head_not_mem _ _ _ _ hstar2,
    subLazy_id_of_head_not_mem _ _ _ _ hstar2]

/-- C2 (amended theorem): the escaper's substitutions run in the fixed
order ~, ^, backslash, then `& % $ # _ { }`, then the emphasis
conversions; backslash escaping therefore precedes the reserved-character
and emphasis passes for every input WITHOUT `~` and `^`, and on that
domain the source escaper coincides with the spec-ordered pipeline
`spec_escape` (backslashes introduced by the `~`/`^` substitutions are
otherwise re-escaped, as the counterexample shows). -/
theorem c2_theorem (s : List Char) (h1 : '~' ∉ s) (h2 : '^' ∉ s) :
    add_latex_escape_chars s = spec_escape s := by
  simp only [add_latex_escape_chars, spec_escape]
  rw [pyReplace_single_id _ h1, pyReplace_single_id _ h2]
  have h1' : '~' ∉ pyReplace ['\\']
      ['\\', 't', 'e', 'x', 't', 'b', 'a', 'c', 'k', 's', 'l', 'a', 's', 'h'] s := by
    intro hm
    rcases mem_pyReplace hm with hs | hn
    · exact h1 hs
    · exact absurd hn (by decide)
  have h2' : '^' ∉ pyReplace ['\\']
      ['\\', 't', 'e', 'x', 't', 'b', 'a', 'c', 'k', 's', 'l', 'a', 's', 'h'] s := by
    intro hm
    rcases mem_pyReplace hm with hs | hn
    · exact h2 hs
    · exact absurd hn (by decide)
  rw [pyReplace_single_id _ h1', pyReplace_single_id _ h2']

/-- C2 (witness): the amended order statement applied to the concrete
tilde- and caret-free input "a\b&c*d". -/
theorem c2_witness :
    '~' ∉ ("a\\b&c*d".data) ∧ '^' ∉ ("a\\b&c*d".data) ∧
      add_latex_escape_chars ("a\\b&c*d".data) = spec_escape ("a\\b&c*d".data) :=
  ⟨by decide, by decide, c2_theorem ("a\\b&c*d".data) (by decide) (by decide)⟩

/-! ## The unescaper on escaped-form inputs -/

theorem pyReplaceF_id_of_not_containsSub (old new : List Char) :
    ∀ (f : Nat) (s : List Char), containsSub old s = false → pyReplaceF old new f s = s := by
  intro f
  induction f with
  | zero => intro s _; cases s <;> rfl
  | succ f ih =>
    intro s h
    match s with
    | [] => rfl
    | c :: rest =>
      rw [containsSub] at h
      have h1 : old.isPrefixOf (c :: rest) = false := by
        cases hp : old.isPrefixOf (c :: rest)
        · rfl
        · rw [hp] at h; simp at h
      have h2 : containsSub old rest = false := by
        cases hp : containsSub old rest
        · rfl
        · rw [hp] at h; simp at h
      rw [pyReplaceF, if_neg (by simp [h1]), ih rest h2]

theorem pyReplace_id_of_not_containsSub {old : List Char} (new : List Char) {s : List Char}
    (h : containsSub old s = false) : pyReplace old new s = s :=
  pyReplaceF_id_of_not_containsSub old new s.length s h

/-- A longer pattern occurs only where its prefix occurs. -/
theorem containsSub_append_left (p q : List Char) :
    ∀ (s : List Char), containsSub (p ++ q) s = true → containsSub p s = true := by
  intro s
  induction s with
  | nil =>
    intro h
    rw [containsSub] at h ⊢
    have := List.isPrefixOf_iff_prefix.mp h
    rcases this with ⟨t, ht⟩
    have hp : p = [] := by
      cases p with
      | nil => rfl
      | cons a l => simp at ht
    subst hp
    rfl
  | cons c rest ih =>
    intro h
    rw [containsSub] at h ⊢
    rcases Bool.or_eq_true_iff.mp h with h1 | h1
    · apply Bool.or_eq_true_iff.mpr
      left
      apply List.isPrefixOf_iff_prefix.mpr
      rcases List.isPrefixOf_iff_prefix.mp h1 with ⟨t, ht⟩
      exact ⟨q ++ t, by rw [← ht, List.append_assoc]⟩
    · exact Bool.or_eq_true_iff.mpr (Or.inr (ih h1))

theorem not_containsSub_of_prefix (p q : List Char) {s : List Char}
    (h : containsSub p s = false) : containsSub (p ++ q) s = false := by
  cases hc : containsSub (p ++ q) s
  · rfl
  · rw [containsSub_append_left p q s hc] at h
    exact absurd h (by simp)

/-- In the escaped form of a backslash-free string, no backslash is
followed by a 't' (every backslash is block-initial, followed by one of
the seven reserved characters). -/
theorem not_containsSub_bt (s : List Char) (hbs : '\\' ∉ s) :
    containsSub ['\\', 't'] (s.flatMap escChar) = false := by
  induction s with
  | nil => rfl
  | cons c rest ih =>
    have hcbs : c ≠ '\\' := fun he => hbs (he ▸ List.mem_cons_self c rest)
    have hrest : '\\' ∉ rest := fun hm => hbs (List.mem_cons_of_mem c hm)
    have ihr := ih hrest
    simp only [List.flatMap_cons]
    by_cases hm : c ∈ normalChars
    · have hct : c ≠ 't' := by
        intro he
        subst he
        exact absurd hm (by decide)
      simp only [escChar, if_pos hm, List.cons_append, List.nil_append]
      rw [containsSub, containsSub]
      have p1 : (['\\', 't'] : List Char).isPrefixOf ('\\' :: c :: (rest.flatMap escChar)) = false := by
        simp [List.isPrefixOf]
        intro h
        exact hct h.symm
      have p2 : (['\\', 't'] : List Char).isPrefixOf (c :: (rest.flatMap escChar)) = false := by
        simp [List.isPrefixOf]
        intro h
        exact absurd h.symm hcbs
      rw [p1, p2, ihr]
      rfl
    · simp only [escChar, if_neg hm, List.cons_append, List.nil_append]
      rw [containsSub]
      have p2 : (['\\', 't'] : List Char).isPrefixOf (c :: (rest.flatMap escChar)) = false := by
        simp [List.isPrefixOf]
        intro h
        exact absurd h.symm hcbs
      rw [p2, ihr]
      rfl

/-- Two-character-pattern replacement distributes over an append whose
left part does not end with the pattern's first character (no occurrence
can straddle the boundary). -/
theorem pyReplace_pair_append (a b : Char) (r : List Char) :
    ∀ (n : Nat) (xs ys : List Char), xs.length ≤ n → xs.getLast? ≠ some a →
      pyReplace [a, b] r (xs ++ ys) = pyReplace [a, b] r xs ++ pyReplace [a, b] r ys := by
  intro n
  induction n with
  | zero =>
    intro xs ys hlen _
    have hx : xs = [] := List.eq_nil_of_length_eq_zero (Nat.le_zero.mp hlen)
    subst hx
    simp [pyReplace_nil]
  | succ n ih =>
    intro xs ys hlen hlast
    match xs with
    | [] => simp [pyReplace_nil]
    | c :: xs' =>
      simp only [List.length_cons] at hlen
      by_cases hac : a = c
      · match xs' with
        | [] =>
          exact absurd (by rw [List.getLast?_singleton, hac]) hlast
        | d :: xs'' =>
          by_cases hbd : b = d
          · have hpre1 : ([a, b] : List Char).isPrefixOf (c :: d :: (xs'' ++ ys)) = true := by
              simp [List.isPrefixOf, hac, hbd]
            have hpre2 : ([a, b] : List Char).isPrefixOf (c :: d :: xs'') = true := by
              simp [List.isPrefixOf, hac, hbd]
            rw [show ((c :: d :: xs'') ++ ys) = c :: d :: (xs'' ++ ys) from rfl]
            rw [pyReplace_cons, if_pos ⟨by simp, hpre1⟩]
            rw [pyReplace_cons [a, b] r c (d :: xs''), if_pos ⟨by simp, hpre2⟩]
            simp only [List.length_cons, List.length_singleton, List.length_nil,
              List.drop_succ_cons, List.drop_zero]
            have hlast'' : xs''.getLast? ≠ some a := by
              match xs'' with
              | [] => simp
              | e :: es =>
                rw [List.getLast?_cons_cons, List.getLast?_cons_cons] at hlast
                exact hlast
            rw [ih xs'' ys (by simp only [List.length_cons] at hlen; omega) hlast'',
              List.append_assoc]
          · have hpre1 : ([a, b] : List Char).isPrefixOf (c :: d :: (xs'' ++ ys)) = false := by
              simp [List.isPrefixOf]
              intro _ h
              exact hbd h
            have hpre2 : ([a, b] : List Char).isPrefixOf (c :: d :: xs'') = false := by
              simp [List.isPrefixOf]
              intro _ h
              exact hbd h
            rw [show ((c :: d :: xs'') ++ ys) = c :: ((d :: xs'') ++ ys) from rfl]
            rw [pyReplace_cons, if_neg (by simp [hpre1])]
            rw [pyReplace_cons [a, b] r c (d :: xs''), if_neg (by simp [hpre2])]
            have hlast' : (d :: xs'').getLast? ≠ some a := by
              rw [List.getLast?_cons_cons] at hlast
              exact hlast
            rw [ih (d :: xs'') ys (by omega) hlast']
            rfl
      · have hpre1 : ([a, b] : List Char).isPrefixOf (c :: (xs' ++ ys)) = false := by
          simp [List.isPrefixOf]
          intro h
          exact absurd h hac
        have hpre2 : ([a, b] : List Char).isPrefixOf (c :: xs') = false := by
          simp [List.isPrefixOf]
          intro h
          exact absurd h hac
        rw [show ((c :: xs') ++ ys) = c :: (xs' ++ ys) from rfl]
        rw [pyReplace_cons, if_neg (by simp [hpre1])]
        rw [pyReplace_cons [a, b] r c xs', if_neg (by simp [hpre2])]
        have hlast' : xs'.getLast? ≠ some a := by
          match xs' with
          | [] => simp
          | e :: es =>
            rw [List.getLast?_cons_cons] at hlast
            exact hlast
        rw [ih xs' ys (by omega) hlast']
        rfl

/-- Two-character-pattern replacement acts block-wise on an escaped form
whose blocks do not end with the pattern's first character. -/
theorem pyReplace_pair_flatMap (a b : Char) (r : List Char) (g : Char → List Char) :
    ∀ (s : List Char), (∀ c ∈ s, (g c).getLast? ≠ some a) →
      pyReplace [a, b] r (s.flatMap g) = s.flatMap (fun c => pyReplace [a, b] r (g c)) := by
  intro s
  induction s with
  | nil => intro _; rfl
  | cons c rest ih =>
    intro h
    simp only [List.flatMap_cons]
    rw [pyReplace_pair_append a b r (g c).length (g c) (rest.flatMap g) le_rfl
      (h c (List.mem_cons_self c rest))]
    rw [ih (fun x hx => h x (List.mem_cons_of_mem c hx))]

/-- `pyReplace [a, b] r [x]` on a single character is the identity (a
two-character pattern cannot match). -/
theorem pyReplace_pair_single {a x : Char} (b : Char) (r : List Char) (h : a ≠ x) :
    pyReplace [a, b] r [x] = [x] := by
  rw [pyReplace_cons, if_neg]
  · rw [pyReplace_nil]
  · intro hcon
    have h2 := hcon.2
    simp only [List.isPrefixOf, Bool.and_true, Bool.and_false] at h2
    simp at h2

/-- `pyReplace [a, b] r [a, b] = r`. -/
theorem pyReplace_pair_exact (a b : Char) (r : List Char) :
    pyReplace [a, b] r [a, b] = r := by
  rw [pyReplace_cons, if_pos ⟨by simp, by simp [List.isPrefixOf]⟩]
  show r ++ pyReplace [a, b] r [] = r
  rw [pyReplace_nil, List.append_nil]

/-- `pyReplace [a, b] r [a, y]` is the identity when `b ≠ y` and `a ≠ y`. -/
theorem pyReplace_pair_miss {a b y : Char} (r : List Char) (h1 : b ≠ y) (h2 : a ≠ y) :
    pyReplace [a, b] r [a, y] = [a, y] := by
  rw [pyReplace_cons, if_neg]
  · show a :: pyReplace [a, b] r [y] = [a, y]
    rw [pyReplace_pair_single b r h2]
  · intro hcon
    have h := hcon.2
    simp [List.isPrefixOf] at h
    exact h1 h

/-- Undoing the reserved-character escapes: folding the seven
`\c -> c` replacements over the escaped form restores the original
(backslash-free) string.  Stated for any duplicate-free, backslash-free
character list `cs`. -/
theorem unescChain_restore :
    ∀ (cs : List Char), cs.Nodup → (∀ c ∈ cs, c ≠ '\\') →
      ∀ (s : List Char), '\\' ∉ s →
        cs.foldl (fun t c => pyReplace ['\\', c] [c] t)
          (s.flatMap (fun c => if c ∈ cs then ['\\', c] else [c])) = s := by
  intro cs
  induction cs with
  | nil =>
    intro _ _ s _
    simp only [List.foldl_nil, List.not_mem_nil, if_false]
    exact flatMap_id_chars s
  | cons c0 cs' ih =>
    intro hnd hbs s hs
    have hc0 : c0 ∉ cs' := (List.nodup_cons.mp hnd).1
    have hnd' : cs'.Nodup := (List.nodup_cons.mp hnd).2
    have hbs0 : c0 ≠ '\\' := hbs c0 (List.mem_cons_self c0 cs')
    have hbs' : ∀ c ∈ cs', c ≠ '\\' := fun c hc => hbs c (List.mem_cons_of_mem c0 hc)
    simp only [List.foldl_cons]
    rw [pyReplace_pair_flatMap '\\' c0 [c0] _ s (by
      intro c hc
      by_cases hm : c ∈ c0 :: cs'
      · rw [if_pos hm]
        simp only [List.getLast?_cons_cons, List.getLast?_singleton]
        intro he
        have hcc : c = '\\' := by injection he
        exact hs (hcc ▸ hc)
      · rw [if_neg hm]
        simp only [List.getLast?_singleton]
        intro he
        have hcc : c = '\\' := by injection he
        exact hs (hcc ▸ hc))]
    rw [flatMap_congr_mem (fun c => pyReplace ['\\', c0] [c0]
        (if c ∈ c0 :: cs' then ['\\', c] else [c]))
      (fun c => if c ∈ cs' then ['\\', c] else [c]) s (by
      intro c hc
      have hcbs : c ≠ '\\' := fun he => hs (he ▸ hc)
      by_cases h0 : c = c0
      · subst h0
        simp only [if_pos (List.mem_cons_self c cs'), if_neg hc0]
        exact pyReplace_pair_exact '\\' c [c]
      · by_cases hm : c ∈ cs'
        · simp only [if_pos (List.mem_cons_of_mem c0 hm), if_pos hm]
          exact pyReplace_pair_miss [c0] (fun he => h0 he.symm) (fun he => hcbs he.symm)
        · have hni : c ∉ c0 :: cs' := by
            intro hcc
            rcases List.mem_cons.mp hcc with h | h
            · exact h0 h
            · exact hm h
          simp only [if_neg hni, if_neg hm]
          exact pyReplace_pair_single c0 [c0] (fun he => hcbs he.symm))]
    exact ih hnd' hbs' s hs

/-- The unescaper inverts the per-character escape map on backslash-free
inputs. -/
theorem remove_flatMap_escChar (s : List Char) (hbs : '\\' ∉ s) :
    remove_latex_escape_chars (s.flatMap escChar) = s := by
  have hbt := not_containsSub_bt s hbs
  have h1 : containsSub ['\\', 't', 'e', 'x', 't', 'a', 's', 'c', 'i', 'i', 't', 'i', 'l', 'd', 'e', ' ']
      (s.flatMap escChar) = false :=
    not_containsSub_of_prefix ['\\', 't'] ['e', 'x', 't', 'a', 's', 'c', 'i', 'i', 't', 'i', 'l', 'd', 'e', ' '] hbt
  have h2 : containsSub ['\\', 't', 'e', 'x', 't', 'a', 's', 'c', 'i', 'i', 'c', 'i', 'r', 'c', 'u', 'm']
      (s.flatMap escChar) = false :=
    not_containsSub_of_prefix ['\\', 't'] ['e', 'x', 't', 'a', 's', 'c', 'i', 'i', 'c', 'i', 'r', 'c', 'u', 'm'] hbt
  have h3 : containsSub ['\\', 't', 'e', 'x', 't', 'b', 'a', 'c', 'k', 's', 'l', 'a', 's', 'h']
      (s.flatMap escChar) = false :=
    not_containsSub_of_prefix ['\\', 't'] ['e', 'x', 't', 'b', 'a', 'c', 'k', 's', 'l', 'a', 's', 'h'] hbt
  have hU := unescChain_restore normalChars (by decide) (by decide) s hbs
  rw [show (fun c => if c ∈ normalChars then ['\\', c] else [c]) = escChar from rfl] at hU
  simp only [normalChars, List.foldl_cons, List.foldl_nil] at hU
  simp only [remove_latex_escape_chars]
  rw [pyReplace_id_of_not_containsSub _ h1, pyReplace_id_of_not_containsSub _ h2,
    pyReplace_id_of_not_containsSub _ h3]
  rw [hU]
  rw [subLazy_id_of_head_not_mem _ _ _ _ hbs, subLazy_id_of_head_not_mem _ _ _ _ hbs,
    subLazy_id_of_head_not_mem _ _ _ _ hbs]

/-- C1 (amended theorem): the inline escaper round-trips exactly on every
string containing none of `~`, `^`, backslash or asterisk (the code's
substitution order breaks the round trip for `~` and `^`, and the claim's
own carve-outs — literal LaTeX escape sequences and asterisk-markup
collisions — are formalized conservatively as the absence of backslash and
asterisk). -/
theorem c1_theorem (s : List Char)
    (h : ∀ c ∈ s, c ≠ '~' ∧ c ≠ '^' ∧ c ≠ '\\' ∧ c ≠ '*') :
    remove_latex_escape_chars (add_latex_escape_chars s) = s := by
  rw [add_latex_eq_flatMap s h]
  exact remove_flatMap_escChar s (fun hm => (h _ hm).2.2.1 rfl)

/-- C1 (witness): the amended round trip applied to the concrete string
"a&b _c%d$e#f", which satisfies the hypothesis. -/
theorem c1_witness :
    (∀ c ∈ ("a&b _c%d$e#f".data), c ≠ '~' ∧ c ≠ '^' ∧ c ≠ '\\' ∧ c ≠ '*') ∧
      remove_latex_escape_chars (add_latex_escape_chars ("a&b _c%d$e#f".data))
        = ("a&b _c%d$e#f".data) :=
  ⟨by decide, c1_theorem ("a&b _c%d$e#f".data) (by decide)⟩

/-! ## Evaluating the body parser on schematic dash lines -/

theorem pyFind_replicate_space (k : Nat) (t : List Char) :
    pyFind '-' (List.replicate k ' ' ++ '-' :: t) = (k : Int) := by
  induction k with
  | zero => simp [pyFind]
  | succ k ih =>
    rw [List.replicate_succ, List.cons_append, pyFind]
    rw [if_neg (by decide)]
    simp only [ih]
    rw [if_neg (by omega)]
    push_cast
    ring

theorem pyStrip_cons_space (t : List Char) : pyStrip (' ' :: t) = pyStrip t := by
  simp [pyStrip, List.dropWhile, isPySpace]

theorem count_eq_zero_of_not_mem {a : Char} {l : List Char} (h : a ∉ l) :
    l.count a = 0 :=
  List.count_eq_zero.mpr h

/-- One loop iteration on a dash line `k spaces ++ "- " ++ t` (no pipes,
no further dashes) with an empty table buffer: the line becomes an item or
opens a group at the position determined by the previously seen levels. -/
theorem parseBodyLine_dash (st : BodyState) (k : Nat) (t : List Char) (m : PyNode)
    (hTable : st.table = [])
    (ht : '-' ∉ t) (hp : '|' ∉ t)
    (happ : appendDescend
        (if st.cur < (k : Int) then
          PyNode.cons (PyNode.str (add_latex_escape_chars (pyStrip t))) PyNode.nil
         else PyNode.str (add_latex_escape_chars (pyStrip t)))
        (((if (k : Int) ∈ st.levels then st.levels else st.levels ++ [(k : Int)]).filter
            (fun x => decide (x < (k : Int)))).length)
        st.master = some m) :
    parseBodyLine st (List.replicate k ' ' ++ '-' :: ' ' :: t)
      = Except.ok
        { master := m
          cur := (k : Int)
          levels := (if (k : Int) ∈ st.levels then st.levels else st.levels ++ [(k : Int)])
          table := [] } := by
  have hfind : pyFind '-' (List.replicate k ' ' ++ '-' :: ' ' :: t) = (k : Int) :=
    pyFind_replicate_space k (' ' :: t)
  have hcd : (List.replicate k ' ' ++ '-' :: ' ' :: t).count '-' = 1 := by
    rw [List.count_append]
    rw [show (('-' :: ' ' :: t).count '-') = (' ' :: t).count '-' + 1 from List.count_cons_self '-' _]
    rw [show ((' ' :: t).count '-') = t.count '-' from by
      rw [List.count_cons]; simp]
    rw [count_eq_zero_of_not_mem ht]
    simp [List.count_replicate]
  have hcp : (List.replicate k ' ' ++ '-' :: ' ' :: t).count '|' = 0 := by
    rw [List.count_append]
    rw [List.count_cons, List.count_cons]
    rw [count_eq_zero_of_not_mem hp]
    simp [List.count_replicate]
  have hdrop : (List.replicate k ' ' ++ '-' :: ' ' :: t).drop (((k : Int) + 1).toNat) = ' ' :: t := by
    have h1 : ((k : Int) + 1).toNat = k + 1 := by omega
    have h2 := List.drop_left (List.replicate k ' ') ('-' :: ' ' :: t)
    rw [List.length_replicate] at h2
    rw [h1, ← List.drop_drop, h2]
    rfl
  rw [parseBodyLine]
  rw [hfind, hcd, hcp]
  rw [if_neg (by
    intro hcon
    exact absurd hcon.2 (by omega))]
  rw [if_neg (by omega)]
  rw [if_neg (by
    intro hcon
    exact absurd hTable hcon.1)]
  simp only [hdrop, pyStrip_cons_space]
  rw [happ, hTable]

theorem except_bind_ok {ε α β : Type} (a : α) (f : α → Except ε β) :
    (Except.ok a : Except ε α) >>= f = f a := rfl

/-- C4: body nesting follows first-seen-depth ordering.  For arbitrary
item texts (no dashes, no pipes), input at dash depths [0, 4, 8, 4, 0]
parses to a tree with exactly one root-level group, nested two deep at
the depth-8 item, with flat root siblings at the depth-0 items; and input
at the non-multiple-of-four depths [0, 3, 7] nests two deep all the same
(first-seen-depth ordering, not fixed column multiples). -/
theorem c4_theorem (t0 t1 t2 t3 t4 : List Char)
    (h0 : '-' ∉ t0 ∧ '|' ∉ t0) (h1 : '-' ∉ t1 ∧ '|' ∉ t1)
    (h2 : '-' ∉ t2 ∧ '|' ∉ t2) (h3 : '-' ∉ t3 ∧ '|' ∉ t3)
    (h4 : '-' ∉ t4 ∧ '|' ∉ t4) :
    parse_memo_body
        [ '-' :: ' ' :: t0
        , ' ' :: ' ' :: ' ' :: ' ' :: '-' :: ' ' :: t1
        , ' ' :: ' ' :: ' ' :: ' ' :: ' ' :: ' ' :: ' ' :: ' ' :: '-' :: ' ' :: t2
        , ' ' :: ' ' :: ' ' :: ' ' :: '-' :: ' ' :: t3
        , '-' :: ' ' :: t4 ]
      = Except.ok (PyNode.ofList
          [ PyNode.str (add_latex_escape_chars (pyStrip t0))
          , PyNode.ofList
              [ PyNode.str (add_latex_escape_chars (pyStrip t1))
              , PyNode.ofList [PyNode.str (add_latex_escape_chars (pyStrip t2))]
              , PyNode.str (add_latex_escape_chars (pyStrip t3)) ]
          , PyNode.str (add_latex_escape_chars (pyStrip t4)) ]) ∧
    parse_memo_body
        [ '-' :: ' ' :: t0
        , ' ' :: ' ' :: ' ' :: '-' :: ' ' :: t1
        , ' ' :: ' ' :: ' ' :: ' ' :: ' ' :: ' ' :: ' ' :: '-' :: ' ' :: t2 ]
      = Except.ok (PyNode.ofList
          [ PyNode.str (add_latex_escape_chars (pyStrip t0))
          , PyNode.ofList
              [ PyNode.str (add_latex_escape_chars (pyStrip t1))
              , PyNode.ofList [PyNode.str (add_latex_escape_chars (pyStrip t2))] ] ]) := by
  constructor
  · have s1 : parseBodyLine initBodyState ('-' :: ' ' :: t0)
        = Except.ok
          { master := PyNode.cons (PyNode.str (add_latex_escape_chars (pyStrip t0))) PyNode.nil
            cur := 0
            levels := [0]
            table := [] } :=
      parseBodyLine_dash initBodyState 0 t0 _ rfl h0.1 h0.2 rfl
    have s2 : parseBodyLine
          { master := PyNode.cons (PyNode.str (add_latex_escape_chars (pyStrip t0))) PyNode.nil
            cur := 0
            levels := [0]
            table := [] }
          (' ' :: ' ' :: ' ' :: ' ' :: '-' :: ' ' :: t1)
        = Except.ok
          { master := PyNode.ofList
              [ PyNode.str (add_latex_escape_chars (pyStrip t0))
              , PyNode.ofList [PyNode.str (add_latex_escape_chars (pyStrip t1))] ]
            cur := 4
            levels := [0, 4]
            table := [] } :=
      parseBodyLine_dash _ 4 t1 _ rfl h1.1 h1.2 rfl
    have s3 : parseBodyLine
          { master := PyNode.ofList
              [ PyNode.str (add_latex_escape_chars (pyStrip t0))
              , PyNode.ofList [PyNode.str (add_latex_escape_chars (pyStrip t1))] ]
            cur := 4
            levels := [0, 4]
            table := [] }
          (' ' :: ' ' :: ' ' :: ' ' :: ' ' :: ' ' :: ' ' :: ' ' :: '-' :: ' ' :: t2)
        = Except.ok
          { master := PyNode.ofList
              [ PyNode.str (add_latex_escape_chars (pyStrip t0))
              , PyNode.ofList
                  [ PyNode.str (add_latex_escape_chars (pyStrip t1))
                  , PyNode.ofList [PyNode.str (add_latex_escape_chars (pyStrip t2))] ] ]
            cur := 8
            levels := [0, 4, 8]
            table := [] } :=
      parseBodyLine_dash _ 8 t2 _ rfl h2.1 h2.2 rfl
    have s4 : parseBodyLine
          { master := PyNode.ofList
              [ PyNode.str (add_latex_escape_chars (pyStrip t0))
              , PyNode.ofList
                  [ PyNode.str (add_latex_escape_chars (pyStrip t1))
                  , PyNode.ofList [PyNode.str (add_latex_escape_chars (pyStrip t2))] ] ]
            cur := 8
            levels := [0, 4, 8]
            table := [] }
          (' ' :: ' ' :: ' ' :: ' ' :: '-' :: ' ' :: t3)
        = Except.ok
          { master := PyNode.ofList
              [ PyNode.str (add_latex_escape_chars (pyStrip t0))
              , PyNode.ofList
                  [ PyNode.str (add_latex_escape_chars (pyStrip t1))
                  , PyNode.ofList [PyNode.str (add_latex_escape_chars (pyStrip t2))]
                  , PyNode.str (add_latex_escape_chars (pyStrip t3)) ] ]
            cur := 4
            levels := [0, 4, 8]
            table := [] } :=
      parseBodyLine_dash _ 4 t3 _ rfl h3.1 h3.2 rfl
    have s5 : parseBodyLine
          { master := PyNode.ofList
              [ PyNode.str (add_latex_escape_chars (pyStrip t0))
              , PyNode.ofList
                  [ PyNode.str (add_latex_escape_chars (pyStrip t1))
                  , PyNode.ofList [PyNode.str (add_latex_escape_chars (pyStrip t2))]
                  , PyNode.str (add_latex_escape_chars (pyStrip t3)) ] ]
            cur := 4
            levels := [0, 4, 8]
            table := [] }
          ('-' :: ' ' :: t4)
        = Except.ok
          { master := PyNode.ofList
              [ PyNode.str (add_latex_escape_chars (pyStrip t0))
              , PyNode.ofList
                  [ PyNode.str (add_latex_escape_chars (pyStrip t1))
                  , PyNode.ofList [PyNode.str (add_latex_escape_chars (pyStrip t2))]
                  , PyNode.str (add_latex_escape_chars (pyStrip t3)) ]
              , PyNode.str (add_latex_escape_chars (pyStrip t4)) ]
            cur := 0
            levels := [0, 4, 8]
            table := [] } :=
      parseBodyLine_dash _ 0 t4 _ rfl h4.1 h4.2 rfl
    rw [parse_memo_body]
    simp only [List.foldlM_cons, List.foldlM_nil, s1, except_bind_ok, s2, s3, s4, s5]
    rfl
  · have s1 : parseBodyLine initBodyState ('-' :: ' ' :: t0)
        = Except.ok
          { master := PyNode.cons (PyNode.str (add_latex_escape_chars (pyStrip t0))) PyNode.nil
            cur := 0
            levels := [0]
            table := [] } :=
      parseBodyLine_dash initBodyState 0 t0 _ rfl h0.1 h0.2 rfl
    have s2 : parseBodyLine
          { master := PyNode.cons (PyNode.str (add_latex_escape_chars (pyStrip t0))) PyNode.nil
            cur := 0
            levels := [0]
            table := [] }
          (' ' :: ' ' :: ' ' :: '-' :: ' ' :: t1)
        = Except.ok
          { master := PyNode.ofList
              [ PyNode.str (add_latex_escape_chars (pyStrip t0))
              , PyNode.ofList [PyNode.str (add_latex_escape_chars (pyStrip t1))] ]
            cur := 3
            levels := [0, 3]
            table := [] } :=
      parseBodyLine_dash _ 3 t1 _ rfl h1.1 h1.2 rfl
    have s3 : parseBodyLine
          { master := PyNode.ofList
              [ PyNode.str (add_latex_escape_chars (pyStrip t0))
              , PyNode.ofList [PyNode.str (add_latex_escape_chars (pyStrip t1))] ]
            cur := 3
            levels := [0, 3]
            table := [] }
          (' ' :: ' ' :: ' ' :: ' ' :: ' ' :: ' ' :: ' ' :: '-' :: ' ' :: t2)
        = Except.ok
          { master := PyNode.ofList
              [ PyNode.str (add_latex_escape_chars (pyStrip t0))
              , PyNode.ofList
                  [ PyNode.str (add_latex_escape_chars (pyStrip t1))
                  , PyNode.ofList [PyNode.str (add_latex_escape_chars (pyStrip t2))] ] ]
            cur := 7
            levels := [0, 3, 7]
            table := [] } :=
      parseBodyLine_dash _ 7 t2 _ rfl h2.1 h2.2 rfl
    rw [parse_memo_body]
    simp only [List.foldlM_cons, List.foldlM_nil, s1, except_bind_ok, s2, s3]
    rfl

/-- C4 (witness): the indentation-fidelity statement applied to the
concrete texts a, b, c, d, e. -/
theorem c4_witness :
    ('-' ∉ (['a'] : List Char) ∧ '|' ∉ (['a'] : List Char)) ∧
      parse_memo_body
          [ '-' :: ' ' :: ['a']
          , ' ' :: ' ' :: ' ' :: ' ' :: '-' :: ' ' :: ['b']
          , ' ' :: ' ' :: ' ' :: ' ' :: ' ' :: ' ' :: ' ' :: ' ' :: '-' :: ' ' :: ['c']
          , ' ' :: ' ' :: ' ' :: ' ' :: '-' :: ' ' :: ['d']
          , '-' :: ' ' :: ['e'] ]
        = Except.ok (PyNode.ofList
            [ PyNode.str (add_latex_escape_chars (pyStrip ['a']))
            , PyNode.ofList
                [ PyNode.str (add_latex_escape_chars (pyStrip ['b']))
                , PyNode.ofList [PyNode.str (add_latex_escape_chars (pyStrip ['c']))]
                , PyNode.str (add_latex_escape_chars (pyStrip ['d'])) ]
            , PyNode.str (add_latex_escape_chars (pyStrip ['e'])) ]) :=
  ⟨⟨by decide, by decide⟩,
    ( c4_theorem ['a'] ['b'] ['c'] ['d'] ['e'] ⟨by decide, by decide⟩ ⟨by decide, by decide⟩
      ⟨by decide, by decide⟩ ⟨by decide, by decide⟩ ⟨by decide, by decide⟩).1⟩

theorem except_bind_err {ε α β : Type} (e : ε) (f : α → Except ε β) :
    (Except.error e : Except ε α) >>= f = Except.error e := rfl

/-- C8 (amended theorem): a body whose first line is a continuation line
(no dash, fewer than two pipes) has no prior item to continue;
`parse_memo_body` raises the `IndexError` that `parse_lines` converts to
"ERROR: Failed to parse memo body: list index out of range" — an error
result, not a no-op, whatever follows. -/
theorem c8_theorem (line : List Char) (rest : List (List Char))
    (hdash : pyFind '-' line = -1) (hpipe : line.count '|' ≤ 1) :
    parse_memo_body (line :: rest) = Except.error ("list index out of range".data) := by
  have hstep : parseBodyLine initBodyState line = Except.error ("list index out of range".data) := by
    rw [parseBodyLine, hdash]
    rw [if_neg (by
      intro hcon
      exact absurd hcon.2 (by omega))]
    rw [if_pos rfl]
    rfl
  rw [parse_memo_body]
  rw [List.foldlM_cons, hstep]
  rfl

/-- C8 (witness): the continuation-first error applied to the concrete
body line "hello". -/
theorem c8_witness :
    pyFind '-' ("hello".data) = -1 ∧ ("hello".data).count '|' ≤ 1 ∧
      parse_memo_body [("hello".data)] = Except.error ("list index out of range".data) :=
  ⟨by decide, by decide, c8_theorem ("hello".data) [] (by decide) (by decide)⟩

/-! ## C9: the 50,000-character input limit -/

theorem pyStrip_eq_nil_imp {s : List Char} (h : pyStrip s = []) :
    ∀ c ∈ s, isPySpace c = true := by
  intro c hc
  rw [pyStrip] at h
  have h1 : (s.dropWhile isPySpace).reverse.dropWhile isPySpace = [] := by
    have := congrArg List.reverse h
    simpa using this
  have h2 : ∀ x ∈ (s.dropWhile isPySpace).reverse, isPySpace x = true :=
    List.dropWhile_eq_nil_iff.mp h1
  have h3 : ∀ x ∈ s.dropWhile isPySpace, isPySpace x = true := by
    intro x hx
    exact h2 x (List.mem_reverse.mpr hx)
  have hsplit := List.takeWhile_append_dropWhile (p := isPySpace) (l := s)
  rw [← hsplit] at hc
  rcases List.mem_append.mp hc with hx | hx
  · exact List.mem_takeWhile_imp hx
  · exact h3 c hx

theorem mem_pyJoinLines_head {l : List Char} {ls : List (List Char)} {c : Char}
    (hc : c ∈ l) : c ∈ pyJoinLines (l :: ls) := by
  match ls with
  | [] => exact hc
  | l2 :: ls2 => exact List.mem_append.mpr (Or.inl hc)

/-- C9: any input whose retained (non-blank, non-comment) lines joined
with newlines exceed 50,000 characters is rejected up front with the
too-long input-validation error; no MemoModel is ever constructed,
regardless of the rest of the input's content. -/
theorem c9_theorem (file_lines : List (List Char))
    (h : 50000 < (pyJoinLines (file_lines.filter retainedLine)).length) :
    parse_lines file_lines
      = Except.error ("INPUT VALIDATION ERROR: Input text too long (maximum 50,000 characters)".data) := by
  have hne : file_lines.filter retainedLine ≠ [] := by
    intro he
    rw [he] at h
    simp [pyJoinLines] at h
  rcases List.exists_cons_of_ne_nil hne with ⟨l, ls, hfl⟩
  have hmem : l ∈ file_lines.filter retainedLine := by
    rw [hfl]
    exact List.mem_cons_self l ls
  have hlr : retainedLine l = true := (List.mem_filter.mp hmem).2
  have hstripl : pyStrip l ≠ [] := by
    rw [retainedLine] at hlr
    revert hlr
    match pyStrip l with
    | [] => intro h2; exact absurd h2 (by simp)
    | c :: cs => intro _; simp
  have hex : ∃ c ∈ l, isPySpace c = false := by
    by_contra hcon
    push_neg at hcon
    apply hstripl
    rw [pyStrip]
    have h1 : l.dropWhile isPySpace = [] := by
      apply List.dropWhile_eq_nil_iff.mpr
      intro x hx
      cases hxs : isPySpace x
      · exact absurd hxs (hcon x hx)
      · rfl
    rw [h1]
    rfl
  rcases hex with ⟨ch, hch, hchs⟩
  have hchtotal : ch ∈ pyJoinLines (file_lines.filter retainedLine) := by
    rw [hfl]
    exact mem_pyJoinLines_head hch
  have hstriptotal : ¬ (pyStrip (pyJoinLines (file_lines.filter retainedLine)) = []) := by
    intro he
    have h2 := pyStrip_eq_nil_imp he ch hchtotal
    rw [hchs] at h2
    exact absurd h2 (by simp)
  have hval : validate_input_text (pyJoinLines (file_lines.filter retainedLine))
      = some ("Input text too long (maximum 50,000 characters)".data) := by
    rw [validate_input_text, if_neg hstriptotal, if_pos h]
  rw [parse_lines]
  simp only [hval]
  rfl

/-- C9 (witness): the limit theorem applied to a single 50,001-character
line. -/
theorem c9_witness :
    50000 < (pyJoinLines (([List.replicate 50001 'a']).filter retainedLine)).length ∧
      parse_lines [List.replicate 50001 'a']
        = Except.error ("INPUT VALIDATION ERROR: Input text too long (maximum 50,000 characters)".data) := by
  have hdw : ∀ n : Nat, (List.replicate n 'a').dropWhile isPySpace = List.replicate n 'a' := by
    intro n
    cases n with
    | zero => rfl
    | succ k =>
      rw [List.replicate_succ, List.dropWhile_cons]
      rw [if_neg (by decide)]
  have hstrip : pyStrip (List.replicate 50001 'a') = List.replicate 50001 'a' := by
    rw [pyStrip, hdw, List.reverse_replicate, hdw, List.reverse_replicate]
  have hret : retainedLine (List.replicate 50001 'a') = true := by
    rw [retainedLine, hstrip]
    rw [List.replicate_succ]
    simp
  have hfilter : ([List.replicate 50001 'a']).filter retainedLine = [List.replicate 50001 'a'] := by
    rw [List.filter_cons, if_pos hret]
    rfl
  have hlen : 50000 < (pyJoinLines (([List.replicate 50001 'a']).filter retainedLine)).length := by
    rw [hfilter]
    rw [show pyJoinLines [List.replicate 50001 'a'] = List.replicate 50001 'a' from rfl]
    rw [List.length_replicate]
    norm_num
  exact ⟨hlen, c9_theorem [List.replicate 50001 'a'] hlen⟩

/-! ## C10: the header/body boundary -/

/-- C10: the boundary is the first retained line containing the substring
"SUBJECT" anywhere in it, whether or not it is a KEY = value assignment:
for retained input of the shape pre ++ [x] ++ post where no line of `pre`
contains "SUBJECT" and `x` does, every line up to and including `x` is
scanned by the header-line processor and exactly the lines after `x` are
parsed as body — the parse equals the pipeline applied to that split. -/
theorem c10_theorem (pre : List (List Char)) (x : List Char) (post : List (List Char))
    (hpre : ∀ l ∈ pre, containsSub ("SUBJECT".data) l = false)
    (hx : containsSub ("SUBJECT".data) x = true)
    (hret : ∀ l ∈ pre ++ x :: post, retainedLine l = true)
    (hval : validate_input_text (pyJoinLines (pre ++ x :: post)) = none) :
    parse_lines (pre ++ x :: post)
      = (match (pre ++ [x]).foldlM processHeaderLine ([] : PyDict) with
         | Except.error e => Except.error e
         | Except.ok d =>
           match parse_memo_body post with
           | Except.error e => Except.error (("ERROR: Failed to parse memo body: ".data) ++ e)
           | Except.ok body =>
             match validate_memo_fields (dictSet ("text".data) (PyVal.nodes body) d) with
             | some e => Except.error (("FIELD VALIDATION ERROR: ".data) ++ e)
             | none => MemoModel.from_dict (dictSet ("text".data) (PyVal.nodes body) d)) := by
  have hfilter : (pre ++ x :: post).filter retainedLine = pre ++ x :: post :=
    List.filter_eq_self.mpr hret
  have hidx : subjectIdx (pre ++ x :: post) = some pre.length := by
    rw [subjectIdx, List.findIdx?_append]
    rw [List.findIdx?_eq_none_iff.mpr hpre]
    rw [show List.findIdx? (fun s => containsSub ("SUBJECT".data) s) (x :: post)
        = some 0 from by rw [List.findIdx?_cons, if_pos hx]]
    simp [Option.or]
  have htake : (pre ++ x :: post).take (pre.length + 1) = pre ++ [x] := by
    have h2 := @List.take_append _ pre (x :: post) 1
    simpa using h2
  have hdrop : (pre ++ x :: post).drop (pre.length + 1) = post := by
    have h2 := @List.drop_append _ pre (x :: post) 1
    simpa using h2
  rw [parse_lines]
  simp only [hfilter, hval, hidx, htake, hdrop]

/-- C10 (witness): the boundary theorem at a concrete input whose FIRST
line contains "SUBJECT" only inside a value — the later real
`SUBJECT = Real Subject` line and the dash line are consequently parsed
as body, not as header. -/
theorem c10_witness :
    (∀ l ∈ (["RANK = CPT".data] : List (List Char)),
        containsSub ("SUBJECT".data) l = false) ∧
      containsSub ("SUBJECT".data) ("ORGANIZATION_NAME = ABOUT SUBJECT HQ".data) = true ∧
      parse_lines (["RANK = CPT".data] ++ ("ORGANIZATION_NAME = ABOUT SUBJECT HQ".data)
          :: ["- a".data, "SUBJECT = Real Subject".data])
        = (match ((["RANK = CPT".data] : List (List Char))
              ++ [("ORGANIZATION_NAME = ABOUT SUBJECT HQ".data)]).foldlM
                processHeaderLine ([] : PyDict) with
           | Except.error e => Except.error e
           | Except.ok d =>
             match parse_memo_body ["- a".data, "SUBJECT = Real Subject".data] with
             | Except.error e => Except.error (("ERROR: Failed to parse memo body: ".data) ++ e)
             | Except.ok body =>
               match validate_memo_fields (dictSet ("text".data) (PyVal.nodes body) d) with
               | some e => Except.error (("FIELD VALIDATION ERROR: ".data) ++ e)
               | none => MemoModel.from_dict (dictSet ("text".data) (PyVal.nodes body) d)) :=
  ⟨by decide, by decide,
    c10_theorem ["RANK = CPT".data] ("ORGANIZATION_NAME = ABOUT SUBJECT HQ".data)
      ["- a".data, "SUBJECT = Real Subject".data]
      (by decide) (by decide) (by decide) (by decide)⟩

/-! ## C6: table extraction -/

theorem pyFind_eq_neg_one_of_not_mem {t : Char} {l : List Char} (h : t ∉ l) :
    pyFind t l = -1 := by
  induction l with
  | nil => rfl
  | cons c rest ih =>
    rw [pyFind]
    rw [if_neg (fun he => h (by rw [← he]; exact List.mem_cons_self c rest))]
    simp only [ih (fun hm => h (List.mem_cons_of_mem c hm))]
    rfl

/-- One loop iteration on a table row: the line is buffered. -/
theorem parseBodyLine_tableRow (st : BodyState) (line : List Char)
    (hcond : (pyFind '-' line = -1 ∨ 1 < line.count '-') ∧ 1 < line.count '|') :
    parseBodyLine st line = Except.ok { st with table := st.table ++ [line] } := by
  rw [parseBodyLine]
  rw [if_pos hcond]

/-- One loop iteration on a dash line while a table is buffered: the
buffered table is rendered and emitted first, then the dash line is
appended after it. -/
theorem parseBodyLine_dash_flush (st : BodyState) (k : Nat) (t : List Char) (m : PyNode)
    (hTable : st.table ≠ [])
    (ht : '-' ∉ t) (hp : '|' ∉ t)
    (happ : appendDescend
        (if st.cur < (k : Int) then
          PyNode.cons (PyNode.str (add_latex_escape_chars (pyStrip t))) PyNode.nil
         else PyNode.str (add_latex_escape_chars (pyStrip t)))
        (((if (k : Int) ∈ st.levels then st.levels else st.levels ++ [(k : Int)]).filter
            (fun x => decide (x < (k : Int)))).length)
        (PyNode.appendElem (PyNode.str (process_table st.table)) st.master) = some m) :
    parseBodyLine st (List.replicate k ' ' ++ '-' :: ' ' :: t)
      = Except.ok
        { master := m
          cur := (k : Int)
          levels := (if (k : Int) ∈ st.levels then st.levels else st.levels ++ [(k : Int)])
          table := [] } := by
  have hfind : pyFind '-' (List.replicate k ' ' ++ '-' :: ' ' :: t) = (k : Int) :=
    pyFind_replicate_space k (' ' :: t)
  have hcd : (List.replicate k ' ' ++ '-' :: ' ' :: t).count '-' = 1 := by
    rw [List.count_append]
    rw [show (('-' :: ' ' :: t).count '-') = (' ' :: t).count '-' + 1 from List.count_cons_self '-' _]
    rw [show ((' ' :: t).count '-') = t.count '-' from by
      rw [List.count_cons]; simp]
    rw [count_eq_zero_of_not_mem ht]
    simp [List.count_replicate]
  have hcp : (List.replicate k ' ' ++ '-' :: ' ' :: t).count '|' = 0 := by
    rw [List.count_append]
    rw [List.count_cons, List.count_cons]
    rw [count_eq_zero_of_not_mem hp]
    simp [List.count_replicate]
  have hdrop : (List.replicate k ' ' ++ '-' :: ' ' :: t).drop (((k : Int) + 1).toNat) = ' ' :: t := by
    have h1 : ((k : Int) + 1).toNat = k + 1 := by omega
    have h2 := List.drop_left (List.replicate k ' ') ('-' :: ' ' :: t)
    rw [List.length_replicate] at h2
    rw [h1, ← List.drop_drop, h2]
    rfl
  rw [parseBodyLine]
  rw [hfind, hcd, hcp]
  rw [if_neg (by
    intro hcon
    exact absurd hcon.2 (by omega))]
  rw [if_neg (by omega)]
  rw [if_pos ⟨hTable, by omega⟩]
  simp only [hdrop, pyStrip_cons_space]
  rw [happ]

theorem pySplit_not_mem {sep : Char} {u : List Char} (h : sep ∉ u) :
    pySplit sep u = [u] := by
  induction u with
  | nil => rfl
  | cons c rest ih =>
    rw [pySplit]
    rw [if_neg (fun he => h (by rw [← he]; exact List.mem_cons_self c rest))]
    rw [ih (fun hm => h (List.mem_cons_of_mem c hm))]

theorem pySplit_not_mem_append {sep : Char} {u : List Char} (t : List Char) (h : sep ∉ u) :
    pySplit sep (u ++ sep :: t) = u :: pySplit sep t := by
  induction u with
  | nil =>
    rw [List.nil_append, pySplit, if_pos rfl]
  | cons c rest ih =>
    rw [List.cons_append, pySplit]
    rw [if_neg (fun he => h (by rw [← he]; exact List.mem_cons_self c rest))]
    rw [ih (fun hm => h (List.mem_cons_of_mem c hm))]

theorem pyStrip_concat_space (t : List Char) : pyStrip (t ++ [' ']) = pyStrip t := by
  rw [pyStrip, pyStrip, List.dropWhile_append]
  cases hdw : (t.dropWhile isPySpace).isEmpty
  · simp only [Bool.false_eq_true, if_false]
    rw [List.reverse_append]
    rw [show ([' '] : List Char).reverse = [' '] from rfl]
    rw [show ([' '] : List Char) ++ (t.dropWhile isPySpace).reverse
        = ' ' :: (t.dropWhile isPySpace).reverse from rfl]
    rw [List.dropWhile_cons, if_pos (by decide)]
  · simp only [if_pos rfl]
    rw [List.isEmpty_iff.mp hdw]
    rfl

theorem containsSub_of_isPrefixOf {p s : List Char} (h : p.isPrefixOf s = true) :
    containsSub p s = true := by
  cases s with
  | nil => rw [containsSub]; exact h
  | cons c rest => rw [containsSub, h]; rfl

theorem containsSub_self_append (p r : List Char) : containsSub p (p ++ r) = true :=
  containsSub_of_isPrefixOf (List.isPrefixOf_iff_prefix.mpr (List.prefix_append p r))

theorem containsSub_append_right {p t : List Char} (u : List Char)
    (h : containsSub p t = true) : containsSub p (u ++ t) = true := by
  induction u with
  | nil => simpa using h
  | cons c rest ih =>
    rw [List.cons_append, containsSub, ih]
    simp

theorem containsSub_append_extend {p t : List Char} (u : List Char)
    (h : containsSub p t = true) : containsSub p (t ++ u) = true := by
  induction t with
  | nil =>
    rw [containsSub] at h
    have hp : p = [] := by
      rcases List.isPrefixOf_iff_prefix.mp h with ⟨w, hw⟩
      cases p with
      | nil => rfl
      | cons a l => simp at hw
    subst hp
    exact containsSub_of_isPrefixOf (by simp [List.isPrefixOf])
  | cons c rest ih =>
    rw [containsSub] at h
    rw [List.cons_append, containsSub]
    rcases Bool.or_eq_true_iff.mp h with h1 | h1
    · have hpp : p.isPrefixOf ((c :: rest) ++ u) = true := by
        apply List.isPrefixOf_iff_prefix.mpr
        rcases List.isPrefixOf_iff_prefix.mp h1 with ⟨w, hw⟩
        exact ⟨w ++ u, by rw [← List.append_assoc, hw]⟩
      rw [List.cons_append] at hpp
      rw [hpp]
      rfl
    · rw [ih h1]
      simp

theorem mem_pyJoinSep_containsSub {c : List Char} (sep : List Char) :
    ∀ (cs : List (List Char)), c ∈ cs → containsSub c (pyJoinSep sep cs) = true := by
  intro cs
  induction cs with
  | nil => intro h; simp at h
  | cons l ls ih =>
    intro h
    rcases List.mem_cons.mp h with h1 | h1
    · subst h1
      match ls with
      | [] =>
        show containsSub c c = true
        exact containsSub_of_isPrefixOf
          (List.isPrefixOf_iff_prefix.mpr (List.prefix_refl c))
      | l2 :: ls2 =>
        show containsSub c (c ++ sep ++ pyJoinSep sep (l2 :: ls2)) = true
        rw [List.append_assoc]
        exact containsSub_self_append c _
    · match ls with
      | [] => simp at h1
      | l2 :: ls2 =>
        show containsSub c (l ++ sep ++ pyJoinSep sep (l2 :: ls2)) = true
        rw [List.append_assoc]
        exact containsSub_append_right l (containsSub_append_right sep (ih h1))

/-- Every cell of the header row occurs in the rendered table markup. -/
theorem mem_tableCells_containsSub_process_table {c : List Char}
    (header : List Char) (rest : List (List Char)) (h : c ∈ tableCells header) :
    containsSub c (process_table (header :: rest)) = true := by
  rw [process_table]
  have hrow : containsSub c
      (pyJoinSep (" & ".data) (tableCells header) ++ (" \\\\\n\\hline\n".data)) = true :=
    containsSub_append_extend _ (mem_pyJoinSep_containsSub _ (tableCells header) h)
  have hjoin : containsSub c
      (pyJoinSep [] (((tableCells header) :: ((rest.drop 1).map tableCells)).map
        (fun cs => pyJoinSep (" & ".data) cs ++ (" \\\\\n\\hline\n".data)))) = true := by
    rw [List.map_cons]
    match ((rest.drop 1).map tableCells).map
        (fun cs => pyJoinSep (" & ".data) cs ++ (" \\\\\n\\hline\n".data)) with
    | [] => exact hrow
    | r2 :: rs =>
      show containsSub c (_ ++ [] ++ pyJoinSep [] (r2 :: rs)) = true
      rw [List.append_assoc]
      exact containsSub_append_extend _ hrow
  rw [List.append_assoc, List.append_assoc, List.append_assoc]
  apply containsSub_append_right
  apply containsSub_append_right
  apply containsSub_append_right
  exact containsSub_append_extend _ hjoin

theorem not_mem_seg {c : Char} {x : List Char} (hs : c ≠ ' ') (hx : c ∉ x) :
    c ∉ (' ' :: x ++ [' ']) := by
  intro hm
  rcases List.mem_cons.mp hm with h | h
  · exact hs h
  rcases List.mem_append.mp h with h | h
  · exact hx h
  · exact hs (List.mem_singleton.mp h)

theorem not_mem_row {c : Char} {x y z : List Char} (hp : c ≠ '|') (hs : c ≠ ' ')
    (hx : c ∉ x) (hy : c ∉ y) (hz : c ∉ z) :
    c ∉ ('|' :: ((' ' :: x ++ [' ']) ++ '|' ::
      ((' ' :: y ++ [' ']) ++ '|' :: ((' ' :: z ++ [' ']) ++ ['|'])))) := by
  intro hm
  rcases List.mem_cons.mp hm with h | h
  · exact hp h
  rcases List.mem_append.mp h with h | h
  · exact not_mem_seg hs hx h
  rcases List.mem_cons.mp h with h | h
  · exact hp h
  rcases List.mem_append.mp h with h | h
  · exact not_mem_seg hs hy h
  rcases List.mem_cons.mp h with h | h
  · exact hp h
  rcases List.mem_append.mp h with h | h
  · exact not_mem_seg hs hz h
  · exact hp (List.mem_singleton.mp h)

theorem count_pipe_row (x y z : List Char) (hx : '|' ∉ x) (hy : '|' ∉ y) (hz : '|' ∉ z) :
    ('|' :: ((' ' :: x ++ [' ']) ++ '|' ::
      ((' ' :: y ++ [' ']) ++ '|' :: ((' ' :: z ++ [' ']) ++ ['|'])))).count '|' = 4 := by
  have e1 : (' ' :: x ++ [' ']).count '|' = 0 :=
    count_eq_zero_of_not_mem (not_mem_seg (by decide) hx)
  have e2 : (' ' :: y ++ [' ']).count '|' = 0 :=
    count_eq_zero_of_not_mem (not_mem_seg (by decide) hy)
  have e3 : (' ' :: z ++ [' ']).count '|' = 0 :=
    count_eq_zero_of_not_mem (not_mem_seg (by decide) hz)
  rw [List.count_cons_self, List.count_append, e1,
      List.count_cons_self, List.count_append, e2,
      List.count_cons_self, List.count_append, e3,
      List.count_cons_self]
  simp

/-- Splitting a well-formed `| x | y | z |` row on pipes, stripping and
dropping the empty outer cells yields exactly the three cell texts. -/
theorem tableCells_row (x y z : List Char)
    (hx : '|' ∉ x) (hy : '|' ∉ y) (hz : '|' ∉ z)
    (hsx : pyStrip x = x) (hsy : pyStrip y = y) (hsz : pyStrip z = z)
    (hnx : x ≠ []) (hny : y ≠ []) (hnz : z ≠ []) :
    tableCells ('|' :: ((' ' :: x ++ [' ']) ++ '|' ::
      ((' ' :: y ++ [' ']) ++ '|' :: ((' ' :: z ++ [' ']) ++ ['|'])))) = [x, y, z] := by
  have hmx : '|' ∉ (' ' :: x ++ [' ']) := not_mem_seg (by decide) hx
  have hmy : '|' ∉ (' ' :: y ++ [' ']) := not_mem_seg (by decide) hy
  have hmz : '|' ∉ (' ' :: z ++ [' ']) := not_mem_seg (by decide) hz
  have hsplit : pySplit '|' ('|' :: ((' ' :: x ++ [' ']) ++ '|' ::
      ((' ' :: y ++ [' ']) ++ '|' :: ((' ' :: z ++ [' ']) ++ ['|']))))
      = [[], ' ' :: x ++ [' '], ' ' :: y ++ [' '], ' ' :: z ++ [' '], []] := by
    rw [pySplit, if_pos rfl]
    rw [pySplit_not_mem_append _ hmx]
    rw [pySplit_not_mem_append _ hmy]
    rw [pySplit_not_mem_append _ hmz]
    rfl
  have e1 : pyStrip (' ' :: x ++ [' ']) = x := by
    rw [pyStrip_concat_space, pyStrip_cons_space, hsx]
  have e2 : pyStrip (' ' :: y ++ [' ']) = y := by
    rw [pyStrip_concat_space, pyStrip_cons_space, hsy]
  have e3 : pyStrip (' ' :: z ++ [' ']) = z := by
    rw [pyStrip_concat_space, pyStrip_cons_space, hsz]
  have hex : x.isEmpty = false := by
    cases x with
    | nil => exact absurd rfl hnx
    | cons c l => rfl
  have hey : y.isEmpty = false := by
    cases y with
    | nil => exact absurd rfl hny
    | cons c l => rfl
  have hez : z.isEmpty = false := by
    cases z with
    | nil => exact absurd rfl hnz
    | cons c l => rfl
  rw [tableCells, hsplit]
  simp only [List.map_cons, List.map_nil, e1, e2, e3]
  rw [show pyStrip ([] : List Char) = [] from rfl]
  simp [List.filter_cons, hex, hey, hez]
  rw [if_neg hnx, if_neg hny, if_neg hnz]

/-- C6: a contiguous 3-row, 3-column pipe-delimited block (header row,
separator row, data row) surrounded on both sides by ordinary dash items
parses to exactly one table node positioned between the two item nodes:
the pipe rows are buffered (absorbed) by the table, the table is closed
and emitted by the first following non-table line, and the rendered
markup `process_table` produces contains each original header label. -/
theorem c6_theorem (a b h1 h2 h3 d1 d2 d3 row1 row3 sepr : List Char)
    (hr1 : row1 = '|' :: ((' ' :: h1 ++ [' ']) ++ '|' ::
        ((' ' :: h2 ++ [' ']) ++ '|' :: ((' ' :: h3 ++ [' ']) ++ ['|']))))
    (hr3 : row3 = '|' :: ((' ' :: d1 ++ [' ']) ++ '|' ::
        ((' ' :: d2 ++ [' ']) ++ '|' :: ((' ' :: d3 ++ [' ']) ++ ['|']))))
    (hsep : sepr = ("| --- | --- | --- |".data))
    (ha : '-' ∉ a ∧ '|' ∉ a) (hb : '-' ∉ b ∧ '|' ∉ b)
    (hc : ∀ c ∈ [h1, h2, h3, d1, d2, d3],
        '-' ∉ c ∧ '|' ∉ c ∧ pyStrip c = c ∧ c ≠ []) :
    parse_memo_body ['-' :: ' ' :: a, row1, sepr, row3, '-' :: ' ' :: b]
      = Except.ok (PyNode.ofList
          [ PyNode.str (add_latex_escape_chars (pyStrip a))
          , PyNode.str (process_table [row1, sepr, row3])
          , PyNode.str (add_latex_escape_chars (pyStrip b)) ])
      ∧ containsSub h1 (process_table [row1, sepr, row3]) = true
      ∧ containsSub h2 (process_table [row1, sepr, row3]) = true
      ∧ containsSub h3 (process_table [row1, sepr, row3]) = true := by
  obtain ⟨hd1, hp1, hs1, hn1⟩ := hc h1 (by simp)
  obtain ⟨hd2, hp2, hs2, hn2⟩ := hc h2 (by simp)
  obtain ⟨hd3, hp3, hs3, hn3⟩ := hc h3 (by simp)
  obtain ⟨he1, hq1, _, _⟩ := hc d1 (by simp)
  obtain ⟨he2, hq2, _, _⟩ := hc d2 (by simp)
  obtain ⟨he3, hq3, _, _⟩ := hc d3 (by simp)
  subst hr1
  subst hr3
  subst hsep
  have hcells : tableCells ('|' :: ((' ' :: h1 ++ [' ']) ++ '|' ::
      ((' ' :: h2 ++ [' ']) ++ '|' :: ((' ' :: h3 ++ [' ']) ++ ['|'])))) = [h1, h2, h3] :=
    tableCells_row h1 h2 h3 hp1 hp2 hp3 hs1 hs2 hs3 hn1 hn2 hn3
  have hin1 : containsSub h1 (process_table
      [ '|' :: ((' ' :: h1 ++ [' ']) ++ '|' ::
          ((' ' :: h2 ++ [' ']) ++ '|' :: ((' ' :: h3 ++ [' ']) ++ ['|'])))
      , ("| --- | --- | --- |".data)
      , '|' :: ((' ' :: d1 ++ [' ']) ++ '|' ::
          ((' ' :: d2 ++ [' ']) ++ '|' :: ((' ' :: d3 ++ [' ']) ++ ['|']))) ]) = true := by
    apply mem_tableCells_containsSub_process_table
    rw [hcells]
    simp
  have hin2 : containsSub h2 (process_table
      [ '|' :: ((' ' :: h1 ++ [' ']) ++ '|' ::
          ((' ' :: h2 ++ [' ']) ++ '|' :: ((' ' :: h3 ++ [' ']) ++ ['|'])))
      , ("| --- | --- | --- |".data)
      , '|' :: ((' ' :: d1 ++ [' ']) ++ '|' ::
          ((' ' :: d2 ++ [' ']) ++ '|' :: ((' ' :: d3 ++ [' ']) ++ ['|']))) ]) = true := by
    apply mem_tableCells_containsSub_process_table
    rw [hcells]
    simp
  have hin3 : containsSub h3 (process_table
      [ '|' :: ((' ' :: h1 ++ [' ']) ++ '|' ::
          ((' ' :: h2 ++ [' ']) ++ '|' :: ((' ' :: h3 ++ [' ']) ++ ['|'])))
      , ("| --- | --- | --- |".data)
      , '|' :: ((' ' :: d1 ++ [' ']) ++ '|' ::
          ((' ' :: d2 ++ [' ']) ++ '|' :: ((' ' :: d3 ++ [' ']) ++ ['|']))) ]) = true := by
    apply mem_tableCells_containsSub_process_table
    rw [hcells]
    simp
  have s1 : parseBodyLine initBodyState ('-' :: ' ' :: a)
      = Except.ok
        { master := PyNode.cons (PyNode.str (add_latex_escape_chars (pyStrip a))) PyNode.nil
          cur := 0
          levels := [0]
          table := [] } :=
    parseBodyLine_dash initBodyState 0 a _ rfl ha.1 ha.2 rfl
  have s2 : parseBodyLine
        { master := PyNode.cons (PyNode.str (add_latex_escape_chars (pyStrip a))) PyNode.nil
          cur := 0
          levels := [0]
          table := [] }
        ('|' :: ((' ' :: h1 ++ [' ']) ++ '|' ::
          ((' ' :: h2 ++ [' ']) ++ '|' :: ((' ' :: h3 ++ [' ']) ++ ['|']))))
      = Except.ok
        { master := PyNode.cons (PyNode.str (add_latex_escape_chars (pyStrip a))) PyNode.nil
          cur := 0
          levels := [0]
          table := [ '|' :: ((' ' :: h1 ++ [' ']) ++ '|' ::
            ((' ' :: h2 ++ [' ']) ++ '|' :: ((' ' :: h3 ++ [' ']) ++ ['|']))) ] } :=
    parseBodyLine_tableRow _ _
      ⟨Or.inl (pyFind_eq_neg_one_of_not_mem
          (not_mem_row (by decide) (by decide) hd1 hd2 hd3)),
       by rw [count_pipe_row h1 h2 h3 hp1 hp2 hp3]; decide⟩
  have s3 : parseBodyLine
        { master := PyNode.cons (PyNode.str (add_latex_escape_chars (pyStrip a))) PyNode.nil
          cur := 0
          levels := [0]
          table := [ '|' :: ((' ' :: h1 ++ [' ']) ++ '|' ::
            ((' ' :: h2 ++ [' ']) ++ '|' :: ((' ' :: h3 ++ [' ']) ++ ['|']))) ] }
        ("| --- | --- | --- |".data)
      = Except.ok
        { master := PyNode.cons (PyNode.str (add_latex_escape_chars (pyStrip a))) PyNode.nil
          cur := 0
          levels := [0]
          table := [ '|' :: ((' ' :: h1 ++ [' ']) ++ '|' ::
              ((' ' :: h2 ++ [' ']) ++ '|' :: ((' ' :: h3 ++ [' ']) ++ ['|'])))
            , ("| --- | --- | --- |".data) ] } :=
    parseBodyLine_tableRow _ _ ⟨Or.inr (by decide), by decide⟩
  have s4 : parseBodyLine
        { master := PyNode.cons (PyNode.str (add_latex_escape_chars (pyStrip a))) PyNode.nil
          cur := 0
          levels := [0]
          table := [ '|' :: ((' ' :: h1 ++ [' ']) ++ '|' ::
              ((' ' :: h2 ++ [' ']) ++ '|' :: ((' ' :: h3 ++ [' ']) ++ ['|'])))
            , ("| --- | --- | --- |".data) ] }
        ('|' :: ((' ' :: d1 ++ [' ']) ++ '|' ::
          ((' ' :: d2 ++ [' ']) ++ '|' :: ((' ' :: d3 ++ [' ']) ++ ['|']))))
      = Except.ok
        { master := PyNode.cons (PyNode.str (add_latex_escape_chars (pyStrip a))) PyNode.nil
          cur := 0
          levels := [0]
          table := [ '|' :: ((' ' :: h1 ++ [' ']) ++ '|' ::
              ((' ' :: h2 ++ [' ']) ++ '|' :: ((' ' :: h3 ++ [' ']) ++ ['|'])))
            , ("| --- | --- | --- |".data)
            , '|' :: ((' ' :: d1 ++ [' ']) ++ '|' ::
              ((' ' :: d2 ++ [' ']) ++ '|' :: ((' ' :: d3 ++ [' ']) ++ ['|']))) ] } :=
    parseBodyLine_tableRow _ _
      ⟨Or.inl (pyFind_eq_neg_one_of_not_mem
          (not_mem_row (by decide) (by decide) he1 he2 he3)),
       by rw [count_pipe_row d1 d2 d3 hq1 hq2 hq3]; decide⟩
  have s5 : parseBodyLine
        { master := PyNode.cons (PyNode.str (add_latex_escape_chars (pyStrip a))) PyNode.nil
          cur := 0
          levels := [0]
          table := [ '|' :: ((' ' :: h1 ++ [' ']) ++ '|' ::
              ((' ' :: h2 ++ [' ']) ++ '|' :: ((' ' :: h3 ++ [' ']) ++ ['|'])))
            , ("| --- | --- | --- |".data)
            , '|' :: ((' ' :: d1 ++ [' ']) ++ '|' ::
              ((' ' :: d2 ++ [' ']) ++ '|' :: ((' ' :: d3 ++ [' ']) ++ ['|']))) ] }
        ('-' :: ' ' :: b)
      = Except.ok
        { master := PyNode.ofList
            [ PyNode.str (add_latex_escape_chars (pyStrip a))
            , PyNode.str (process_table
                [ '|' :: ((' ' :: h1 ++ [' ']) ++ '|' ::
                    ((' ' :: h2 ++ [' ']) ++ '|' :: ((' ' :: h3 ++ [' ']) ++ ['|'])))
                , ("| --- | --- | --- |".data)
                , '|' :: ((' ' :: d1 ++ [' ']) ++ '|' ::
                    ((' ' :: d2 ++ [' ']) ++ '|' :: ((' ' :: d3 ++ [' ']) ++ ['|']))) ])
            , PyNode.str (add_latex_escape_chars (pyStrip b)) ]
          cur := 0
          levels := [0]
          table := [] } :=
    parseBodyLine_dash_flush _ 0 b _ (List.cons_ne_nil _ _) hb.1 hb.2 rfl
  refine ⟨?_, hin1, hin2, hin3⟩
  rw [parse_memo_body]
  simp only [List.foldlM_cons, List.foldlM_nil, s1, except_bind_ok, s2, s3, s4, s5]
  rfl

theorem c6_witness :
    parse_memo_body
        [ '-' :: ' ' :: ("alpha".data)
        , ("| Name | Age | City |".data)
        , ("| --- | --- | --- |".data)
        , ("| Bob | 7 | Rome |".data)
        , '-' :: ' ' :: ("omega".data) ]
      = Except.ok (PyNode.ofList
          [ PyNode.str (add_latex_escape_chars (pyStrip ("alpha".data)))
          , PyNode.str (process_table
              [ ("| Name | Age | City |".data)
              , ("| --- | --- | --- |".data)
              , ("| Bob | 7 | Rome |".data) ])
          , PyNode.str (add_latex_escape_chars (pyStrip ("omega".data))) ])
      ∧ containsSub ("Name".data) (process_table
          [ ("| Name | Age | City |".data)
          , ("| --- | --- | --- |".data)
          , ("| Bob | 7 | Rome |".data) ]) = true
      ∧ containsSub ("Age".data) (process_table
          [ ("| Name | Age | City |".data)
          , ("| --- | --- | --- |".data)
          , ("| Bob | 7 | Rome |".data) ]) = true
      ∧ containsSub ("City".data) (process_table
          [ ("| Name | Age | City |".data)
          , ("| --- | --- | --- |".data)
          , ("| Bob | 7 | Rome |".data) ]) = true :=
  c6_theorem ("alpha".data) ("omega".data) ("Name".data) ("Age".data) ("City".data)
    ("Bob".data) ("7".data) ("Rome".data)
    ("| Name | Age | City |".data) ("| Bob | 7 | Rome |".data)
    ("| --- | --- | --- |".data)
    (by decide) (by decide) rfl
    ⟨by decide, by decide⟩ ⟨by decide, by decide⟩ (by decide)

/-! ## Support lemmas for the amended C5 round-trip -/

theorem pySplit_ne_nil (sep : Char) (s : List Char) : pySplit sep s ≠ [] := by
  cases s with
  | nil => simp [pySplit]
  | cons c rest =>
    rw [pySplit]
    by_cases h : c = sep
    · rw [if_pos h]; simp
    · rw [if_neg h]
      match pySplit sep rest with
      | h' :: t => simp
      | [] => simp

theorem pySplit_cons_self (sep : Char) (t : List Char) :
    pySplit sep (sep :: t) = [] :: pySplit sep t := by
  rw [pySplit, if_pos rfl]

theorem pySplit_append_head {sep : Char} {x t h : List Char} {hs : List (List Char)}
    (hx : sep ∉ x) (ht : pySplit sep t = h :: hs) :
    pySplit sep (x ++ t) = (x ++ h) :: hs := by
  induction x with
  | nil => simpa using ht
  | cons c rest ih =>
    rw [List.cons_append, pySplit]
    rw [if_neg (fun he => hx (by rw [← he]; exact List.mem_cons_self c rest))]
    rw [ih (fun hm => hx (List.mem_cons_of_mem c hm))]
    rfl

theorem pySplitFirst_not_mem {sep : Char} {u : List Char} (t : List Char) (h : sep ∉ u) :
    pySplitFirst sep (u ++ sep :: t) = (u, t) := by
  induction u with
  | nil => rw [List.nil_append, pySplitFirst, if_pos rfl]
  | cons c rest ih =>
    rw [List.cons_append, pySplitFirst]
    rw [if_neg (fun he => h (by rw [← he]; exact List.mem_cons_self c rest))]
    rw [ih (fun hm => h (List.mem_cons_of_mem c hm))]

theorem not_containsSub_of_head_not_mem {c : Char} {s : List Char} (p : List Char)
    (h : c ∉ s) : containsSub (c :: p) s = false := by
  induction s with
  | nil => rfl
  | cons a rest ih =>
    rw [containsSub]
    have h1 : (c :: p).isPrefixOf (a :: rest) = false := by
      cases hpre : (c :: p).isPrefixOf (a :: rest)
      · rfl
      · rcases List.isPrefixOf_iff_prefix.mp hpre with ⟨w, hw⟩
        have hca : c = a := by
          have h2 := congrArg (fun l => l.head?) hw
          simpa using h2
        exact absurd (by rw [hca]; exact List.mem_cons_self a rest) h
    rw [h1, ih (fun hm => h (List.mem_cons_of_mem a hm))]
    rfl

theorem mem_of_containsSub {p s : List Char} (h : containsSub p s = true) :
    ∀ c ∈ p, c ∈ s := by
  induction s with
  | nil =>
    rw [containsSub] at h
    intro c hc
    rcases List.isPrefixOf_iff_prefix.mp h with ⟨w, hw⟩
    cases p with
    | nil => simp at hc
    | cons a l => simp at hw
  | cons a rest ih =>
    rw [containsSub] at h
    rcases Bool.or_eq_true_iff.mp h with h1 | h1
    · intro c hc
      exact (List.isPrefixOf_iff_prefix.mp h1).subset hc
    · intro c hc
      exact List.mem_cons_of_mem a (ih h1 c hc)

theorem not_containsSub_of_mem_not_mem {c : Char} {p s : List Char}
    (hc : c ∈ p) (hs : c ∉ s) : containsSub p s = false := by
  cases h : containsSub p s
  · rfl
  · exact absurd (mem_of_containsSub h c hc) hs

/-- A string avoiding the escaper's special characters and the asterisk
markup opener is a fixed point of `add_latex_escape_chars`. -/
theorem esc_id_of_plain {s : List Char} (h : ∀ c ∈ s, c ∉ escaperChars) :
    add_latex_escape_chars s = s := by
  have h1 : '~' ∉ s := fun hm => h '~' hm (by decide)
  have h2 : '^' ∉ s := fun hm => h '^' hm (by decide)
  have h3 : '\\' ∉ s := fun hm => h '\\' hm (by decide)
  have h4 : '&' ∉ s := fun hm => h '&' hm (by decide)
  have h5 : '%' ∉ s := fun hm => h '%' hm (by decide)
  have h6 : '$' ∉ s := fun hm => h '$' hm (by decide)
  have h7 : '#' ∉ s := fun hm => h '#' hm (by decide)
  have h8 : '_' ∉ s := fun hm => h '_' hm (by decide)
  have h9 : '\x7b' ∉ s := fun hm => h '\x7b' hm (by decide)
  have h10 : '\x7d' ∉ s := fun hm => h '\x7d' hm (by decide)
  have h11 : '*' ∉ s := fun hm => h '*' hm (by decide)
  have e1 : pyReplace ("~".data) ("\\textasciitilde ".data) s = s :=
    pyReplace_single_id _ h1
  have e2 : pyReplace ("^".data) ("\\textasciicircum".data) s = s :=
    pyReplace_single_id _ h2
  have e3 : pyReplace ("\\".data) ("\\textbackslash".data) s = s :=
    pyReplace_single_id _ h3
  have e4 : pyReplace ("&".data) ("\\&".data) s = s :=
    pyReplace_single_id _ h4
  have e5 : pyReplace ("%".data) ("\\%".data) s = s :=
    pyReplace_single_id _ h5
  have e6 : pyReplace ("$".data) ("\\$".data) s = s :=
    pyReplace_single_id _ h6
  have e7 : pyReplace ("#".data) ("\\#".data) s = s :=
    pyReplace_single_id _ h7
  have e8 : pyReplace ("_".data) ("\\_".data) s = s :=
    pyReplace_single_id _ h8
  have e9 : pyReplace ("\x7b".data) ("\\\x7b".data) s = s :=
    pyReplace_single_id _ h9
  have e10 : pyReplace ("\x7d".data) ("\\\x7d".data) s = s :=
    pyReplace_single_id _ h10
  have e11 : subLazy '*' ("**".data) ("***".data) ("\\underline\x7b".data) ("\x7d".data) s = s :=
    subLazy_id_of_head_not_mem _ _ _ _ h11
  have e12 : subLazy '*' ("*".data) ("**".data) ("\\textbf\x7b".data) ("\x7d".data) s = s :=
    subLazy_id_of_head_not_mem _ _ _ _ h11
  have e13 : subLazy '*' [] ("*".data) ("\\textit\x7b".data) ("\x7d".data) s = s :=
    subLazy_id_of_head_not_mem _ _ _ _ h11
  simp only [add_latex_escape_chars, e1, e2, e3, e4, e5, e6, e7, e8, e9, e10, e11, e12, e13]

/-- A backslash-free string is a fixed point of
`remove_latex_escape_chars` (every unescape pattern opens with one). -/
theorem unesc_id_of_no_bs {s : List Char} (h : '\\' ∉ s) :
    remove_latex_escape_chars s = s := by
  have f1 : pyReplace ("\\textasciitilde ".data) ("~".data) s = s :=
    pyReplace_id_of_not_containsSub _ (not_containsSub_of_head_not_mem _ h)
  have f2 : pyReplace ("\\textasciicircum".data) ("^".data) s = s :=
    pyReplace_id_of_not_containsSub _ (not_containsSub_of_head_not_mem _ h)
  have f3 : pyReplace ("\\textbackslash".data) ("\\".data) s = s :=
    pyReplace_id_of_not_containsSub _ (not_containsSub_of_head_not_mem _ h)
  have f4 : pyReplace ("\\&".data) ("&".data) s = s :=
    pyReplace_id_of_not_containsSub _ (not_containsSub_of_head_not_mem _ h)
  have f5 : pyReplace ("\\%".data) ("%".data) s = s :=
    pyReplace_id_of_not_containsSub _ (not_containsSub_of_head_not_mem _ h)
  have f6 : pyReplace ("\\$".data) ("$".data) s = s :=
    pyReplace_id_of_not_containsSub _ (not_containsSub_of_head_not_mem _ h)
  have f7 : pyReplace ("\\#".data) ("#".data) s = s :=
    pyReplace_id_of_not_containsSub _ (not_containsSub_of_head_not_mem _ h)
  have f8 : pyReplace ("\\_".data) ("_".data) s = s :=
    pyReplace_id_of_not_containsSub _ (not_containsSub_of_head_not_mem _ h)
  have f9 : pyReplace ("\\\x7b".data) ("\x7b".data) s = s :=
    pyReplace_id_of_not_containsSub _ (not_containsSub_of_head_not_mem _ h)
  have f10 : pyReplace ("\\\x7d".data) ("\x7d".data) s = s :=
    pyReplace_id_of_not_containsSub _ (not_containsSub_of_head_not_mem _ h)
  have f11 : subLazy '\\' ("underline\x7b".data) ("\x7d".data) ("***".data) ("***".data) s = s :=
    subLazy_id_of_head_not_mem _ _ _ _ h
  have f12 : subLazy '\\' ("textbf\x7b".data) ("\x7d".data) ("**".data) ("**".data) s = s :=
    subLazy_id_of_head_not_mem _ _ _ _ h
  have f13 : subLazy '\\' ("textit\x7b".data) ("\x7d".data) ("*".data) ("*".data) s = s :=
    subLazy_id_of_head_not_mem _ _ _ _ h
  simp only [remove_latex_escape_chars, f1, f2, f3, f4, f5, f6, f7, f8, f9, f10, f11, f12, f13]

/-- A line opening with a non-space, non-`#` character survives the
comment/blank filter. -/
theorem retainedLine_head {c : Char} (t : List Char) (hc : isPySpace c = false)
    (hch : c ≠ '#') : retainedLine (c :: t) = true := by
  rw [retainedLine, pyStrip, List.dropWhile_cons, if_neg (by simp [hc])]
  rw [List.reverse_cons, List.dropWhile_append]
  cases hdw : (List.dropWhile isPySpace t.reverse).isEmpty
  · simp only [Bool.false_eq_true, if_false]
    rw [List.reverse_append]
    simp [hch]
  · simp only [if_pos rfl]
    rw [show List.dropWhile isPySpace [c] = [c] from by
      rw [List.dropWhile_cons, if_neg (by simp [hc])]]
    simp [hch]

/-- A truthy scalar header field serializes to one `KEY = value` line. -/
theorem amdLine_some (K : List Char) {v : List Char} (h : v.isEmpty = false) :
    amdLine K (some v) = K ++ (" = ".data) ++ v ++ ['\n'] := by
  rw [amdLine, if_neg (by simp [h])]

/-- Splitting one serialized header line off the front of the text. -/
theorem pySplit_header_block {K v t : List Char} (hK : '\n' ∉ K) (hv : '\n' ∉ v) :
    pySplit '\n' (K ++ ((" = ".data) ++ (v ++ ('\n' :: t))))
      = (K ++ ((" = ".data) ++ v)) :: pySplit '\n' t := by
  have h0 : pySplit '\n' ('\n' :: t) = [] :: pySplit '\n' t := pySplit_cons_self '\n' t
  have h1 := pySplit_append_head hv h0
  rw [List.append_nil] at h1
  have h2 := pySplit_append_head (show '\n' ∉ (" = ".data) from by decide) h1
  have h3 := pySplit_append_head hK h2
  exact h3

/-- Flattened flat body text splits into alternating item and blank
lines. -/
theorem nls_flat (ts : List (List Char))
    (h : ∀ t ∈ ts, '\\' ∉ t ∧ '\n' ∉ t) :
    pySplit '\n' (nested_list_to_string (PyNode.ofList (ts.map PyNode.str)) 0)
      = ts.flatMap (fun t => [('-' :: ' ' :: t), []]) ++ [[]] := by
  induction ts with
  | nil => rfl
  | cons t rest ih =>
    obtain ⟨hbs, hnl⟩ := h t (List.mem_cons_self t rest)
    have hrest := ih (fun x hx => h x (List.mem_cons_of_mem t hx))
    rw [List.map_cons]
    rw [show PyNode.ofList (PyNode.str t :: rest.map PyNode.str)
        = PyNode.cons (PyNode.str t) (PyNode.ofList (rest.map PyNode.str)) from rfl]
    rw [nested_list_to_string]
    rw [unesc_id_of_no_bs hbs]
    have h0 : pySplit '\n'
        ('\n' :: '\n' :: nested_list_to_string (PyNode.ofList (rest.map PyNode.str)) 0)
        = [] :: [] :: (rest.flatMap (fun x => [('-' :: ' ' :: x), []]) ++ [[]]) := by
      rw [pySplit_cons_self, pySplit_cons_self, hrest]
    have h1 := pySplit_append_head hnl h0
    rw [List.append_nil] at h1
    have h2 := pySplit_append_head (show '\n' ∉ ("- ".data) from by decide) h1
    simpa using h2

/-- Filtering the split body lines drops the blanks and keeps the item
lines. -/
theorem filter_body_lines (ts : List (List Char)) :
    ((ts.flatMap (fun t => [('-' :: ' ' :: t), []]) ++ [[]]).filter retainedLine)
      = ts.map (fun t => '-' :: ' ' :: t) := by
  induction ts with
  | nil => rfl
  | cons t rest ih =>
    have hkeep : retainedLine ('-' :: ' ' :: t) = true :=
      retainedLine_head _ (by decide) (by decide)
    have hdrop : retainedLine ([] : List Char) = false := rfl
    simp [List.flatMap_cons, List.filter_append, List.filter_cons, hkeep, hdrop] at ih ⊢
    exact ih

theorem appendElem_ofList (v : PyNode) (l : List PyNode) :
    PyNode.appendElem v (PyNode.ofList l) = PyNode.ofList (l ++ [v]) := by
  induction l with
  | nil => rfl
  | cons x xs ih =>
    rw [List.cons_append]
    rw [show PyNode.ofList (x :: xs) = PyNode.cons x (PyNode.ofList xs) from rfl]
    rw [show PyNode.ofList (x :: (xs ++ [v])) = PyNode.cons x (PyNode.ofList (xs ++ [v])) from rfl]
    rw [PyNode.appendElem, ih]

theorem appendDescend_zero (v : PyNode) (xs : PyNode) :
    appendDescend v 0 xs = some (PyNode.appendElem v xs) := by
  cases xs <;> rfl

/-- The body loop over flat depth-0 item lines, started after the first
item has fixed the level list at `[0]`: each line appends one escaped
item at the root. -/
theorem foldlM_flat_items (ts : List (List Char))
    (h : ∀ t ∈ ts, '-' ∉ t ∧ '|' ∉ t) :
    ∀ (m0 : PyNode),
    (ts.map (fun t => '-' :: ' ' :: t)).foldlM parseBodyLine
      { master := m0, cur := 0, levels := [0], table := [] }
      = Except.ok
        { master := ts.foldl (fun m t =>
            PyNode.appendElem (PyNode.str (add_latex_escape_chars (pyStrip t))) m) m0
          cur := 0
          levels := [0]
          table := [] } := by
  induction ts with
  | nil => intro m0; rfl
  | cons t rest ih =>
    intro m0
    obtain ⟨hd, hp⟩ := h t (List.mem_cons_self t rest)
    have s1 : parseBodyLine { master := m0, cur := 0, levels := [0], table := [] }
          ('-' :: ' ' :: t)
        = Except.ok
          { master := PyNode.appendElem (PyNode.str (add_latex_escape_chars (pyStrip t))) m0
            cur := 0
            levels := [0]
            table := [] } :=
      parseBodyLine_dash _ 0 t _ rfl hd hp
        (by
          rw [if_neg (by decide : ¬ (((0 : Int)) < ((0 : Nat) : Int)))]
          exact appendDescend_zero _ _)
    rw [List.map_cons, List.foldlM_cons, s1, except_bind_ok]
    rw [ih (fun x hx => h x (List.mem_cons_of_mem t hx)) _]
    rfl

theorem foldl_append_ofList (ts : List (List Char))
    (h : ∀ t ∈ ts, add_latex_escape_chars (pyStrip t) = t) :
    ∀ (acc : List PyNode),
    ts.foldl (fun m t => PyNode.appendElem (PyNode.str (add_latex_escape_chars (pyStrip t))) m)
      (PyNode.ofList acc) = PyNode.ofList (acc ++ ts.map PyNode.str) := by
  induction ts with
  | nil => intro acc; simp
  | cons t rest ih =>
    intro acc
    rw [List.foldl_cons]
    rw [h t (List.mem_cons_self t rest)]
    rw [appendElem_ofList]
    rw [ih (fun x hx => h x (List.mem_cons_of_mem t hx)) (acc ++ [PyNode.str t])]
    rw [List.append_assoc]
    rfl

/-- `parse_memo_body` on a nonempty flat list of depth-0 item lines
yields the flat list of escaped items. -/
theorem parse_body_flat (t0 : List Char) (rest : List (List Char))
    (h : ∀ t ∈ (t0 :: rest), '-' ∉ t ∧ '|' ∉ t ∧ add_latex_escape_chars (pyStrip t) = t) :
    parse_memo_body ((t0 :: rest).map (fun t => '-' :: ' ' :: t))
      = Except.ok (PyNode.ofList ((t0 :: rest).map PyNode.str)) := by
  obtain ⟨hd0, hp0, he0⟩ := h t0 (List.mem_cons_self t0 rest)
  have s1 : parseBodyLine initBodyState ('-' :: ' ' :: t0)
      = Except.ok
        { master := PyNode.cons (PyNode.str (add_latex_escape_chars (pyStrip t0))) PyNode.nil
          cur := 0
          levels := [0]
          table := [] } :=
    parseBodyLine_dash initBodyState 0 t0 _ rfl hd0 hp0 rfl
  rw [parse_memo_body, List.map_cons]
  simp only [List.foldlM_cons, s1, except_bind_ok]
  rw [foldlM_flat_items rest (fun x hx => ⟨(h x (List.mem_cons_of_mem t0 hx)).1,
    (h x (List.mem_cons_of_mem t0 hx)).2.1⟩) _]
  simp only [except_bind_ok]
  rw [show PyNode.cons (PyNode.str (add_latex_escape_chars (pyStrip t0))) PyNode.nil
      = PyNode.ofList [PyNode.str t0] from by rw [he0]; rfl]
  rw [foldl_append_ofList rest (fun x hx => (h x (List.mem_cons_of_mem t0 hx)).2.2)
    [PyNode.str t0]]
  rfl

/-- One serialized header line `KEY = value` re-parses to a scalar dict
assignment of the re-escaped value. -/
theorem processHeaderLine_kv (d : PyDict) (K ik v : List Char)
    (hik : alistGet K key_converter = some ik)
    (hKnm : '=' ∉ K)
    (hKs : pyStrip K = K)
    (hsv : pyStrip v = v)
    (hlen : v.length ≤ 1000)
    (hnl : ik ∉ list_keys) :
    processHeaderLine d (K ++ ((" = ".data) ++ v))
      = Except.ok (dictSet ik (PyVal.s (add_latex_escape_chars v)) d) := by
  have hmem : '=' ∈ (K ++ ((" = ".data) ++ v)) :=
    List.mem_append.mpr (Or.inr (List.mem_append.mpr (Or.inl (by decide))))
  have hshape : K ++ ((" = ".data) ++ v) = (K ++ [' ']) ++ '=' :: (' ' :: v) := by
    rw [List.append_assoc]
    rfl
  have hsp : pySplitFirst '=' (K ++ ((" = ".data) ++ v)) = (K ++ [' '], ' ' :: v) := by
    rw [hshape]
    exact pySplitFirst_not_mem _ (by
      intro hm
      rcases List.mem_append.mp hm with h | h
      · exact hKnm h
      · exact absurd (List.mem_singleton.mp h) (by decide))
  have hkey : pyStrip (K ++ [' ']) = K := by rw [pyStrip_concat_space, hKs]
  have htext : pyStrip (' ' :: v) = v := by rw [pyStrip_cons_space, hsv]
  rw [processHeaderLine, if_pos hmem]
  simp only [hsp, hkey, htext, hik]
  rw [if_neg (Nat.not_lt.mpr hlen)]
  rw [if_neg hnl]

theorem isEmpty_false_of_ne_nil {l : List Char} (h : l ≠ []) : l.isEmpty = false := by
  cases l with
  | nil => exact absurd rfl h
  | cons c t => rfl

theorem not_mem_kv_line {c : Char} {K v : List Char} (hK : c ∉ K)
    (hM : c ∉ (" = ".data)) (hv : c ∉ v) : c ∉ (K ++ ((" = ".data) ++ v)) := by
  intro hm
  rcases List.mem_append.mp hm with h | h
  · exact hK h
  rcases List.mem_append.mp h with h | h
  · exact hM h
  · exact hv h

/-- C5 (amended): the serialize-then-parse round-trip holds on plain
documents: all nine scalar header fields strip-invariant, nonempty, at
most 500 characters, free of newlines, of `J` (so no spurious SUBJECT
marker) and of the escaper's special characters; a nonempty flat body of
items with the same character restrictions (plus no dashes or pipes); the
office-symbol and subject validation rules satisfied; and the re-serialized
text passing input validation.  For such documents `parse_lines` applied to
`to_amd` returns exactly the original document — header fields and body
nodes alike. -/
theorem c5_amended (un usa ucsz os subj an ar ab dt t0 : List Char)
    (rest : List (List Char))
    (hhv : ∀ v ∈ [un, usa, ucsz, os, subj, an, ar, ab, dt],
      pyStrip v = v ∧ v ≠ [] ∧ v.length ≤ 500 ∧ 'J' ∉ v ∧
      (∀ c ∈ v, c ∉ escaperChars) ∧ '\n' ∉ v)
    (hitems : ∀ t ∈ (t0 :: rest), pyStrip t = t ∧ '-' ∉ t ∧ '|' ∉ t ∧ '\n' ∉ t ∧
      (∀ c ∈ t, c ∉ escaperChars))
    (hos2 : 2 ≤ os.length) (hosok : officeSymbolOk os = true)
    (hsub3 : 3 ≤ subj.length)
    (hvalid : validate_input_text (pyJoinLines ((pySplit '\n'
        (MemoModel.to_amd (c5Family un usa ucsz os subj an ar ab dt (t0 :: rest)))).filter
        retainedLine)) = none) :
    MemoModel.from_text (MemoModel.to_amd (c5Family un usa ucsz os subj an ar ab dt (t0 :: rest)))
      = Except.ok (c5Family un usa ucsz os subj an ar ab dt (t0 :: rest)) := by
  obtain ⟨hsun, hneun, hlun, hJun, hPun, hnlun⟩ := hhv un (by simp)
  obtain ⟨hsusa, hneusa, hlusa, hJusa, hPusa, hnlusa⟩ := hhv usa (by simp)
  obtain ⟨hsucsz, hneucsz, hlucsz, hJucsz, hPucsz, hnlucsz⟩ := hhv ucsz (by simp)
  obtain ⟨hsos, hneos, hlos, hJos, hPos, hnlos⟩ := hhv os (by simp)
  obtain ⟨hssubj, hnesubj, hlsubj, hJsubj, hPsubj, hnlsubj⟩ := hhv subj (by simp)
  obtain ⟨hsan, hnean, hlan, hJan, hPan, hnlan⟩ := hhv an (by simp)
  obtain ⟨hsar, hnear, hlar, hJar, hPar, hnlar⟩ := hhv ar (by simp)
  obtain ⟨hsab, hneab, hlab, hJab, hPab, hnlab⟩ := hhv ab (by simp)
  obtain ⟨hsdt, hnedt, hldt, hJdt, hPdt, hnldt⟩ := hhv dt (by simp)
  have hEun : add_latex_escape_chars un = un := esc_id_of_plain hPun
  have hEusa : add_latex_escape_chars usa = usa := esc_id_of_plain hPusa
  have hEucsz : add_latex_escape_chars ucsz = ucsz := esc_id_of_plain hPucsz
  have hEos : add_latex_escape_chars os = os := esc_id_of_plain hPos
  have hEsubj : add_latex_escape_chars subj = subj := esc_id_of_plain hPsubj
  have hEan : add_latex_escape_chars an = an := esc_id_of_plain hPan
  have hEar : add_latex_escape_chars ar = ar := esc_id_of_plain hPar
  have hEab : add_latex_escape_chars ab = ab := esc_id_of_plain hPab
  have hEdt : add_latex_escape_chars dt = dt := esc_id_of_plain hPdt
  have hbsI : ∀ t ∈ (t0 :: rest), '\\' ∉ t ∧ '\n' ∉ t := by
    intro t ht
    obtain ⟨-, -, -, hnlt, hPt⟩ := hitems t ht
    exact ⟨fun hm => hPt '\\' hm (by decide), hnlt⟩
  have hta : MemoModel.to_amd (c5Family un usa ucsz os subj an ar ab dt (t0 :: rest)) =
      ("ORGANIZATION_NAME".data) ++ ((" = ".data) ++ (un ++ ('\n' ::
      (("ORGANIZATION_STREET_ADDRESS".data) ++ ((" = ".data) ++ (usa ++ ('\n' ::
      (("ORGANIZATION_CITY_STATE_ZIP".data) ++ ((" = ".data) ++ (ucsz ++ ('\n' ::
      (("OFFICE_SYMBOL".data) ++ ((" = ".data) ++ (os ++ ('\n' ::
      (("DATE".data) ++ ((" = ".data) ++ (dt ++ ('\n' ::
      (("AUTHOR".data) ++ ((" = ".data) ++ (an ++ ('\n' ::
      (("RANK".data) ++ ((" = ".data) ++ (ar ++ ('\n' ::
      (("BRANCH".data) ++ ((" = ".data) ++ (ab ++ ('\n' ::
      (('\n' :: (("SUBJECT = ".data) ++ (subj ++ ('\n' :: ('\n' ::
      nested_list_to_string (PyNode.ofList ((t0 :: rest).map PyNode.str)) 0))))))))))))))))))))))))))))))))))))) := by
    rw [MemoModel.to_amd]
    simp only [c5Family]
    rw [amdLine_some _ (isEmpty_false_of_ne_nil hneun)]
    rw [amdLine_some _ (isEmpty_false_of_ne_nil hneusa)]
    rw [amdLine_some _ (isEmpty_false_of_ne_nil hneucsz)]
    rw [amdLine_some _ (isEmpty_false_of_ne_nil hneos)]
    rw [amdLine_some _ (isEmpty_false_of_ne_nil hnedt)]
    rw [amdLine_some _ (isEmpty_false_of_ne_nil hnean)]
    rw [amdLine_some _ (isEmpty_false_of_ne_nil hnear)]
    rw [amdLine_some _ (isEmpty_false_of_ne_nil hneab)]
    simp [amdLine, amdListBlock, List.append_assoc]
  have hnls := nls_flat (t0 :: rest) hbsI
  have hsplit : pySplit '\n' (("ORGANIZATION_NAME".data) ++ ((" = ".data) ++ (un ++ ('\n' ::
      (("ORGANIZATION_STREET_ADDRESS".data) ++ ((" = ".data) ++ (usa ++ ('\n' ::
      (("ORGANIZATION_CITY_STATE_ZIP".data) ++ ((" = ".data) ++ (ucsz ++ ('\n' ::
      (("OFFICE_SYMBOL".data) ++ ((" = ".data) ++ (os ++ ('\n' ::
      (("DATE".data) ++ ((" = ".data) ++ (dt ++ ('\n' ::
      (("AUTHOR".data) ++ ((" = ".data) ++ (an ++ ('\n' ::
      (("RANK".data) ++ ((" = ".data) ++ (ar ++ ('\n' ::
      (("BRANCH".data) ++ ((" = ".data) ++ (ab ++ ('\n' ::
      (('\n' :: (("SUBJECT = ".data) ++ (subj ++ ('\n' :: ('\n' ::
      nested_list_to_string (PyNode.ofList ((t0 :: rest).map PyNode.str)) 0)))))))))))))))))))))))))))))))))))))) =
      (("ORGANIZATION_NAME".data) ++ ((" = ".data) ++ un)) :: (("ORGANIZATION_STREET_ADDRESS".data) ++ ((" = ".data) ++ usa)) :: (("ORGANIZATION_CITY_STATE_ZIP".data) ++ ((" = ".data) ++ ucsz)) :: (("OFFICE_SYMBOL".data) ++ ((" = ".data) ++ os)) :: (("DATE".data) ++ ((" = ".data) ++ dt)) :: (("AUTHOR".data) ++ ((" = ".data) ++ an)) :: (("RANK".data) ++ ((" = ".data) ++ ar)) :: (("BRANCH".data) ++ ((" = ".data) ++ ab)) :: ([] :: ((("SUBJECT = ".data) ++ subj) :: ([] ::
      ((t0 :: rest).flatMap (fun t => [('-' :: ' ' :: t), []]) ++ [[]])))) := by
    have q0 : pySplit '\n' ('\n' :: ('\n' ::
        nested_list_to_string (PyNode.ofList ((t0 :: rest).map PyNode.str)) 0))
        = [] :: ([] :: pySplit '\n'
            (nested_list_to_string (PyNode.ofList ((t0 :: rest).map PyNode.str)) 0)) := by
      rw [pySplit_cons_self, pySplit_cons_self]
    have q1 := pySplit_append_head hnlsubj q0
    rw [List.append_nil] at q1
    have q2 := pySplit_append_head (show '\n' ∉ (" = ".data) from by decide) q1
    have q3 := pySplit_append_head (show '\n' ∉ ("SUBJECT".data) from by decide) q2
    rw [pySplit_header_block (by decide) hnlun]
    rw [pySplit_header_block (by decide) hnlusa]
    rw [pySplit_header_block (by decide) hnlucsz]
    rw [pySplit_header_block (by decide) hnlos]
    rw [pySplit_header_block (by decide) hnldt]
    rw [pySplit_header_block (by decide) hnlan]
    rw [pySplit_header_block (by decide) hnlar]
    rw [pySplit_header_block (by decide) hnlab]
    rw [pySplit_cons_self]
    rw [show (("SUBJECT = ".data : List Char) ++ (subj ++ ('\n' :: ('\n' ::
        nested_list_to_string (PyNode.ofList ((t0 :: rest).map PyNode.str)) 0))))
      = ("SUBJECT".data) ++ ((" = ".data) ++ (subj ++ ('\n' :: ('\n' ::
        nested_list_to_string (PyNode.ofList ((t0 :: rest).map PyNode.str)) 0)))) from by
      simp [List.append_assoc]]
    rw [q3]
    rw [hnls]
    simp [List.append_assoc]
  have run : retainedLine ((("ORGANIZATION_NAME".data) ++ ((" = ".data) ++ un))) = true :=
    retainedLine_head _ (by decide) (by decide)
  have rusa : retainedLine ((("ORGANIZATION_STREET_ADDRESS".data) ++ ((" = ".data) ++ usa))) = true :=
    retainedLine_head _ (by decide) (by decide)
  have rucsz : retainedLine ((("ORGANIZATION_CITY_STATE_ZIP".data) ++ ((" = ".data) ++ ucsz))) = true :=
    retainedLine_head _ (by decide) (by decide)
  have ros : retainedLine ((("OFFICE_SYMBOL".data) ++ ((" = ".data) ++ os))) = true :=
    retainedLine_head _ (by decide) (by decide)
  have rdt : retainedLine ((("DATE".data) ++ ((" = ".data) ++ dt))) = true :=
    retainedLine_head _ (by decide) (by decide)
  have ran : retainedLine ((("AUTHOR".data) ++ ((" = ".data) ++ an))) = true :=
    retainedLine_head _ (by decide) (by decide)
  have rar : retainedLine ((("RANK".data) ++ ((" = ".data) ++ ar))) = true :=
    retainedLine_head _ (by decide) (by decide)
  have rab : retainedLine ((("BRANCH".data) ++ ((" = ".data) ++ ab))) = true :=
    retainedLine_head _ (by decide) (by decide)
  have rS : retainedLine ((("SUBJECT = ".data) ++ subj)) = true :=
    retainedLine_head _ (by decide) (by decide)
  have rE : ¬ retainedLine ([] : List Char) = true := by decide
  have hfl : ((("ORGANIZATION_NAME".data) ++ ((" = ".data) ++ un)) :: (("ORGANIZATION_STREET_ADDRESS".data) ++ ((" = ".data) ++ usa)) :: (("ORGANIZATION_CITY_STATE_ZIP".data) ++ ((" = ".data) ++ ucsz)) :: (("OFFICE_SYMBOL".data) ++ ((" = ".data) ++ os)) :: (("DATE".data) ++ ((" = ".data) ++ dt)) :: (("AUTHOR".data) ++ ((" = ".data) ++ an)) :: (("RANK".data) ++ ((" = ".data) ++ ar)) :: (("BRANCH".data) ++ ((" = ".data) ++ ab)) :: ([] :: ((("SUBJECT = ".data) ++ subj) :: ([] ::
      ((t0 :: rest).flatMap (fun t => [('-' :: ' ' :: t), []]) ++ [[]]))))).filter retainedLine = (("ORGANIZATION_NAME".data) ++ ((" = ".data) ++ un)) :: (("ORGANIZATION_STREET_ADDRESS".data) ++ ((" = ".data) ++ usa)) :: (("ORGANIZATION_CITY_STATE_ZIP".data) ++ ((" = ".data) ++ ucsz)) :: (("OFFICE_SYMBOL".data) ++ ((" = ".data) ++ os)) :: (("DATE".data) ++ ((" = ".data) ++ dt)) :: (("AUTHOR".data) ++ ((" = ".data) ++ an)) :: (("RANK".data) ++ ((" = ".data) ++ ar)) :: (("BRANCH".data) ++ ((" = ".data) ++ ab)) :: ((("SUBJECT = ".data) ++ subj) :: ((t0 :: rest).map (fun t => '-' :: ' ' :: t))) := by
    rw [List.filter_cons_of_pos run, List.filter_cons_of_pos rusa,
      List.filter_cons_of_pos rucsz, List.filter_cons_of_pos ros,
      List.filter_cons_of_pos rdt, List.filter_cons_of_pos ran,
      List.filter_cons_of_pos rar, List.filter_cons_of_pos rab,
      List.filter_cons_of_neg rE, List.filter_cons_of_pos rS,
      List.filter_cons_of_neg rE, filter_body_lines]
  have cun : containsSub ("SUBJECT".data) ((("ORGANIZATION_NAME".data) ++ ((" = ".data) ++ un))) = false :=
    not_containsSub_of_mem_not_mem (by decide) (not_mem_kv_line (by decide) (by decide) hJun)
  have cusa : containsSub ("SUBJECT".data) ((("ORGANIZATION_STREET_ADDRESS".data) ++ ((" = ".data) ++ usa))) = false :=
    not_containsSub_of_mem_not_mem (by decide) (not_mem_kv_line (by decide) (by decide) hJusa)
  have cucsz : containsSub ("SUBJECT".data) ((("ORGANIZATION_CITY_STATE_ZIP".data) ++ ((" = ".data) ++ ucsz))) = false :=
    not_containsSub_of_mem_not_mem (by decide) (not_mem_kv_line (by decide) (by decide) hJucsz)
  have cos : containsSub ("SUBJECT".data) ((("OFFICE_SYMBOL".data) ++ ((" = ".data) ++ os))) = false :=
    not_containsSub_of_mem_not_mem (by decide) (not_mem_kv_line (by decide) (by decide) hJos)
  have cdt : containsSub ("SUBJECT".data) ((("DATE".data) ++ ((" = ".data) ++ dt))) = false :=
    not_containsSub_of_mem_not_mem (by decide) (not_mem_kv_line (by decide) (by decide) hJdt)
  have can : containsSub ("SUBJECT".data) ((("AUTHOR".data) ++ ((" = ".data) ++ an))) = false :=
    not_containsSub_of_mem_not_mem (by decide) (not_mem_kv_line (by decide) (by decide) hJan)
  have car : containsSub ("SUBJECT".data) ((("RANK".data) ++ ((" = ".data) ++ ar))) = false :=
    not_containsSub_of_mem_not_mem (by decide) (not_mem_kv_line (by decide) (by decide) hJar)
  have cab : containsSub ("SUBJECT".data) ((("BRANCH".data) ++ ((" = ".data) ++ ab))) = false :=
    not_containsSub_of_mem_not_mem (by decide) (not_mem_kv_line (by decide) (by decide) hJab)
  have cS : containsSub ("SUBJECT".data) ((("SUBJECT = ".data) ++ subj)) = true := by
    rw [show ("SUBJECT = ".data : List Char) = ("SUBJECT".data) ++ (" = ".data) from rfl,
      List.append_assoc]
    exact containsSub_self_append _ _
  have hsubj : subjectIdx ((("ORGANIZATION_NAME".data) ++ ((" = ".data) ++ un)) :: (("ORGANIZATION_STREET_ADDRESS".data) ++ ((" = ".data) ++ usa)) :: (("ORGANIZATION_CITY_STATE_ZIP".data) ++ ((" = ".data) ++ ucsz)) :: (("OFFICE_SYMBOL".data) ++ ((" = ".data) ++ os)) :: (("DATE".data) ++ ((" = ".data) ++ dt)) :: (("AUTHOR".data) ++ ((" = ".data) ++ an)) :: (("RANK".data) ++ ((" = ".data) ++ ar)) :: (("BRANCH".data) ++ ((" = ".data) ++ ab)) :: ((("SUBJECT = ".data) ++ subj) :: ((t0 :: rest).map (fun t => '-' :: ' ' :: t)))) = some 8 := by
    rw [subjectIdx]
    simp only [List.findIdx?_cons, cun, cusa, cucsz, cos, cdt, can, car, cab, cS]
    simp
  have g1 : processHeaderLine ([] : PyDict) ((("ORGANIZATION_NAME".data) ++ ((" = ".data) ++ un)))
      = Except.ok ([(("unit_name".data), PyVal.s un)]) := by
    have h := processHeaderLine_kv ([] : PyDict) ("ORGANIZATION_NAME".data) ("unit_name".data) un rfl
      (by decide) (by decide) hsun (Nat.le_trans hlun (by decide)) (by decide)
    rw [hEun] at h
    exact h
  have g2 : processHeaderLine ([(("unit_name".data), PyVal.s un)] : PyDict) ((("ORGANIZATION_STREET_ADDRESS".data) ++ ((" = ".data) ++ usa)))
      = Except.ok ([(("unit_name".data), PyVal.s un), (("unit_street_address".data), PyVal.s usa)]) := by
    have h := processHeaderLine_kv ([(("unit_name".data), PyVal.s un)] : PyDict) ("ORGANIZATION_STREET_ADDRESS".data) ("unit_street_address".data) usa rfl
      (by decide) (by decide) hsusa (Nat.le_trans hlusa (by decide)) (by decide)
    rw [hEusa] at h
    exact h
  have g3 : processHeaderLine ([(("unit_name".data), PyVal.s un), (("unit_street_address".data), PyVal.s usa)] : PyDict) ((("ORGANIZATION_CITY_STATE_ZIP".data) ++ ((" = ".data) ++ ucsz)))
      = Except.ok ([(("unit_name".data), PyVal.s un), (("unit_street_address".data), PyVal.s usa), (("unit_city_state_zip".data), PyVal.s ucsz)]) := by
    have h := processHeaderLine_kv ([(("unit_name".data), PyVal.s un), (("unit_street_address".data), PyVal.s usa)] : PyDict) ("ORGANIZATION_CITY_STATE_ZIP".data) ("unit_city_state_zip".data) ucsz rfl
      (by decide) (by decide) hsucsz (Nat.le_trans hlucsz (by decide)) (by decide)
    rw [hEucsz] at h
    exact h
  have g4 : processHeaderLine ([(("unit_name".data), PyVal.s un), (("unit_street_address".data), PyVal.s usa), (("unit_city_state_zip".data), PyVal.s ucsz)] : PyDict) ((("OFFICE_SYMBOL".data) ++ ((" = ".data) ++ os)))
      = Except.ok ([(("unit_name".data), PyVal.s un), (("unit_street_address".data), PyVal.s usa), (("unit_city_state_zip".data), PyVal.s ucsz), (("office_symbol".data), PyVal.s os)]) := by
    have h := processHeaderLine_kv ([(("unit_name".data), PyVal.s un), (("unit_street_address".data), PyVal.s usa), (("unit_city_state_zip".data), PyVal.s ucsz)] : PyDict) ("OFFICE_SYMBOL".data) ("office_symbol".data) os rfl
      (by decide) (by decide) hsos (Nat.le_trans hlos (by decide)) (by decide)
    rw [hEos] at h
    exact h
  have g5 : processHeaderLine ([(("unit_name".data), PyVal.s un), (("unit_street_address".data), PyVal.s usa), (("unit_city_state_zip".data), PyVal.s ucsz), (("office_symbol".data), PyVal.s os)] : PyDict) ((("DATE".data) ++ ((" = ".data) ++ dt)))
      = Except.ok ([(("unit_name".data), PyVal.s un), (("unit_street_address".data), PyVal.s usa), (("unit_city_state_zip".data), PyVal.s ucsz), (("office_symbol".data), PyVal.s os), (("todays_date".data), PyVal.s dt)]) := by
    have h := processHeaderLine_kv ([(("unit_name".data), PyVal.s un), (("unit_street_address".data), PyVal.s usa), (("unit_city_state_zip".data), PyVal.s ucsz), (("office_symbol".data), PyVal.s os)] : PyDict) ("DATE".data) ("todays_date".data) dt rfl
      (by decide) (by decide) hsdt (Nat.le_trans hldt (by decide)) (by decide)
    rw [hEdt] at h
    exact h
  have g6 : processHeaderLine ([(("unit_name".data), PyVal.s un), (("unit_street_address".data), PyVal.s usa), (("unit_city_state_zip".data), PyVal.s ucsz), (("office_symbol".data), PyVal.s os), (("todays_date".data), PyVal.s dt)] : PyDict) ((("AUTHOR".data) ++ ((" = ".data) ++ an)))
      = Except.ok ([(("unit_name".data), PyVal.s un), (("unit_street_address".data), PyVal.s usa), (("unit_city_state_zip".data), PyVal.s ucsz), (("office_symbol".data), PyVal.s os), (("todays_date".data), PyVal.s dt), (("author_name".data), PyVal.s an)]) := by
    have h := processHeaderLine_kv ([(("unit_name".data), PyVal.s un), (("unit_street_address".data), PyVal.s usa), (("unit_city_state_zip".data), PyVal.s ucsz), (("office_symbol".data), PyVal.s os), (("todays_date".data), PyVal.s dt)] : PyDict) ("AUTHOR".data) ("author_name".data) an rfl
      (by decide) (by decide) hsan (Nat.le_trans hlan (by decide)) (by decide)
    rw [hEan] at h
    exact h
  have g7 : processHeaderLine ([(("unit_name".data), PyVal.s un), (("unit_street_address".data), PyVal.s usa), (("unit_city_state_zip".data), PyVal.s ucsz), (("office_symbol".data), PyVal.s os), (("todays_date".data), PyVal.s dt), (("author_name".data), PyVal.s an)] : PyDict) ((("RANK".data) ++ ((" = ".data) ++ ar)))
      = Except.ok ([(("unit_name".data), PyVal.s un), (("unit_street_address".data), PyVal.s usa), (("unit_city_state_zip".data), PyVal.s ucsz), (("office_symbol".data), PyVal.s os), (("todays_date".data), PyVal.s dt), (("author_name".data), PyVal.s an), (("author_rank".data), PyVal.s ar)]) := by
    have h := processHeaderLine_kv ([(("unit_name".data), PyVal.s un), (("unit_street_address".data), PyVal.s usa), (("unit_city_state_zip".data), PyVal.s ucsz), (("office_symbol".data), PyVal.s os), (("todays_date".data), PyVal.s dt), (("author_name".data), PyVal.s an)] : PyDict) ("RANK".data) ("author_rank".data) ar rfl
      (by decide) (by decide) hsar (Nat.le_trans hlar (by decide)) (by decide)
    rw [hEar] at h
    exact h
  have g8 : processHeaderLine ([(("unit_name".data), PyVal.s un), (("unit_street_address".data), PyVal.s usa), (("unit_city_state_zip".data), PyVal.s ucsz), (("office_symbol".data), PyVal.s os), (("todays_date".data), PyVal.s dt), (("author_name".data), PyVal.s an), (("author_rank".data), PyVal.s ar)] : PyDict) ((("BRANCH".data) ++ ((" = ".data) ++ ab)))
      = Except.ok ([(("unit_name".data), PyVal.s un), (("unit_street_address".data), PyVal.s usa), (("unit_city_state_zip".data), PyVal.s ucsz), (("office_symbol".data), PyVal.s os), (("todays_date".data), PyVal.s dt), (("author_name".data), PyVal.s an), (("author_rank".data), PyVal.s ar), (("author_branch".data), PyVal.s ab)]) := by
    have h := processHeaderLine_kv ([(("unit_name".data), PyVal.s un), (("unit_street_address".data), PyVal.s usa), (("unit_city_state_zip".data), PyVal.s ucsz), (("office_symbol".data), PyVal.s os), (("todays_date".data), PyVal.s dt), (("author_name".data), PyVal.s an), (("author_rank".data), PyVal.s ar)] : PyDict) ("BRANCH".data) ("author_branch".data) ab rfl
      (by decide) (by decide) hsab (Nat.le_trans hlab (by decide)) (by decide)
    rw [hEab] at h
    exact h
  have g9 : processHeaderLine ([(("unit_name".data), PyVal.s un), (("unit_street_address".data), PyVal.s usa), (("unit_city_state_zip".data), PyVal.s ucsz), (("office_symbol".data), PyVal.s os), (("todays_date".data), PyVal.s dt), (("author_name".data), PyVal.s an), (("author_rank".data), PyVal.s ar), (("author_branch".data), PyVal.s ab)] : PyDict) ((("SUBJECT = ".data) ++ subj))
      = Except.ok ([(("unit_name".data), PyVal.s un), (("unit_street_address".data), PyVal.s usa), (("unit_city_state_zip".data), PyVal.s ucsz), (("office_symbol".data), PyVal.s os), (("todays_date".data), PyVal.s dt), (("author_name".data), PyVal.s an), (("author_rank".data), PyVal.s ar), (("author_branch".data), PyVal.s ab), (("subject".data), PyVal.s subj)]) := by
    have h := processHeaderLine_kv ([(("unit_name".data), PyVal.s un), (("unit_street_address".data), PyVal.s usa), (("unit_city_state_zip".data), PyVal.s ucsz), (("office_symbol".data), PyVal.s os), (("todays_date".data), PyVal.s dt), (("author_name".data), PyVal.s an), (("author_rank".data), PyVal.s ar), (("author_branch".data), PyVal.s ab)] : PyDict) ("SUBJECT".data) ("subject".data) subj rfl
      (by decide) (by decide) hssubj (Nat.le_trans hlsubj (by decide)) (by decide)
    rw [hEsubj] at h
    exact h
  have hfold : ([(("ORGANIZATION_NAME".data) ++ ((" = ".data) ++ un)), (("ORGANIZATION_STREET_ADDRESS".data) ++ ((" = ".data) ++ usa)), (("ORGANIZATION_CITY_STATE_ZIP".data) ++ ((" = ".data) ++ ucsz)), (("OFFICE_SYMBOL".data) ++ ((" = ".data) ++ os)), (("DATE".data) ++ ((" = ".data) ++ dt)), (("AUTHOR".data) ++ ((" = ".data) ++ an)), (("RANK".data) ++ ((" = ".data) ++ ar)), (("BRANCH".data) ++ ((" = ".data) ++ ab)), (("SUBJECT = ".data) ++ subj)]).foldlM processHeaderLine ([] : PyDict) = Except.ok ([(("unit_name".data), PyVal.s un), (("unit_street_address".data), PyVal.s usa), (("unit_city_state_zip".data), PyVal.s ucsz), (("office_symbol".data), PyVal.s os), (("todays_date".data), PyVal.s dt), (("author_name".data), PyVal.s an), (("author_rank".data), PyVal.s ar), (("author_branch".data), PyVal.s ab), (("subject".data), PyVal.s subj)]) := by
    rw [List.foldlM_cons, g1, except_bind_ok, List.foldlM_cons, g2, except_bind_ok,
      List.foldlM_cons, g3, except_bind_ok, List.foldlM_cons, g4, except_bind_ok,
      List.foldlM_cons, g5, except_bind_ok, List.foldlM_cons, g6, except_bind_ok,
      List.foldlM_cons, g7, except_bind_ok, List.foldlM_cons, g8, except_bind_ok,
      List.foldlM_cons, g9, except_bind_ok, List.foldlM_nil]
    rfl
  have hbody : parse_memo_body ((t0 :: rest).map (fun t => '-' :: ' ' :: t))
      = Except.ok (PyNode.ofList ((t0 :: rest).map PyNode.str)) := by
    apply parse_body_flat
    intro t ht
    obtain ⟨hst, hdt2, hpt, -, hPt⟩ := hitems t ht
    refine ⟨hdt2, hpt, ?_⟩
    rw [hst]
    exact esc_id_of_plain hPt
  have hvmf : validate_memo_fields ([(("unit_name".data), PyVal.s un), (("unit_street_address".data), PyVal.s usa), (("unit_city_state_zip".data), PyVal.s ucsz), (("office_symbol".data), PyVal.s os), (("todays_date".data), PyVal.s dt), (("author_name".data), PyVal.s an), (("author_rank".data), PyVal.s ar), (("author_branch".data), PyVal.s ab), (("subject".data), PyVal.s subj), (("text".data), PyVal.nodes (PyNode.ofList ((t0 :: rest).map PyNode.str)))] : PyDict) = none := by
    simp +decide [validate_memo_fields, required_fields, checkRequired, dictGet, dictGetS,
      pyValTruthy, pyValLen, isEmpty_false_of_ne_nil hneun, isEmpty_false_of_ne_nil hneos,
      isEmpty_false_of_ne_nil hnesubj, isEmpty_false_of_ne_nil hnean,
      isEmpty_false_of_ne_nil hnear, hsos, hosok,
      Nat.not_lt.mpr hlun, Nat.not_lt.mpr hlos, Nat.not_lt.mpr hlsubj,
      Nat.not_lt.mpr hlan, Nat.not_lt.mpr hlar,
      Nat.not_lt.mpr hsub3, Nat.not_lt.mpr hos2]
  have hfd : MemoModel.from_dict ([(("unit_name".data), PyVal.s un), (("unit_street_address".data), PyVal.s usa), (("unit_city_state_zip".data), PyVal.s ucsz), (("office_symbol".data), PyVal.s os), (("todays_date".data), PyVal.s dt), (("author_name".data), PyVal.s an), (("author_rank".data), PyVal.s ar), (("author_branch".data), PyVal.s ab), (("subject".data), PyVal.s subj), (("text".data), PyVal.nodes (PyNode.ofList ((t0 :: rest).map PyNode.str)))] : PyDict)
      = Except.ok (c5Family un usa ucsz os subj an ar ab dt (t0 :: rest)) := rfl
  rw [hta, hsplit, hfl] at hvalid
  rw [MemoModel.from_text, hta, hsplit]
  rw [parse_lines]
  simp only [hfl, hvalid, hsubj]
  have htake : ((("ORGANIZATION_NAME".data) ++ ((" = ".data) ++ un)) :: (("ORGANIZATION_STREET_ADDRESS".data) ++ ((" = ".data) ++ usa)) :: (("ORGANIZATION_CITY_STATE_ZIP".data) ++ ((" = ".data) ++ ucsz)) :: (("OFFICE_SYMBOL".data) ++ ((" = ".data) ++ os)) :: (("DATE".data) ++ ((" = ".data) ++ dt)) :: (("AUTHOR".data) ++ ((" = ".data) ++ an)) :: (("RANK".data) ++ ((" = ".data) ++ ar)) :: (("BRANCH".data) ++ ((" = ".data) ++ ab)) :: ((("SUBJECT = ".data) ++ subj) :: ((t0 :: rest).map (fun t => '-' :: ' ' :: t)))).take (8 + 1) = [(("ORGANIZATION_NAME".data) ++ ((" = ".data) ++ un)), (("ORGANIZATION_STREET_ADDRESS".data) ++ ((" = ".data) ++ usa)), (("ORGANIZATION_CITY_STATE_ZIP".data) ++ ((" = ".data) ++ ucsz)), (("OFFICE_SYMBOL".data) ++ ((" = ".data) ++ os)), (("DATE".data) ++ ((" = ".data) ++ dt)), (("AUTHOR".data) ++ ((" = ".data) ++ an)), (("RANK".data) ++ ((" = ".data) ++ ar)), (("BRANCH".data) ++ ((" = ".data) ++ ab)), (("SUBJECT = ".data) ++ subj)] := rfl
  have hdrop : ((("ORGANIZATION_NAME".data) ++ ((" = ".data) ++ un)) :: (("ORGANIZATION_STREET_ADDRESS".data) ++ ((" = ".data) ++ usa)) :: (("ORGANIZATION_CITY_STATE_ZIP".data) ++ ((" = ".data) ++ ucsz)) :: (("OFFICE_SYMBOL".data) ++ ((" = ".data) ++ os)) :: (("DATE".data) ++ ((" = ".data) ++ dt)) :: (("AUTHOR".data) ++ ((" = ".data) ++ an)) :: (("RANK".data) ++ ((" = ".data) ++ ar)) :: (("BRANCH".data) ++ ((" = ".data) ++ ab)) :: ((("SUBJECT = ".data) ++ subj) :: ((t0 :: rest).map (fun t => '-' :: ' ' :: t)))).drop (8 + 1) = (t0 :: rest).map (fun t => '-' :: ' ' :: t) := rfl
  simp only [htake, hfold, hdrop, hbody]
  have hdset : dictSet ("text".data)
      (PyVal.nodes (PyNode.ofList ((t0 :: rest).map PyNode.str))) ([(("unit_name".data), PyVal.s un), (("unit_street_address".data), PyVal.s usa), (("unit_city_state_zip".data), PyVal.s ucsz), (("office_symbol".data), PyVal.s os), (("todays_date".data), PyVal.s dt), (("author_name".data), PyVal.s an), (("author_rank".data), PyVal.s ar), (("author_branch".data), PyVal.s ab), (("subject".data), PyVal.s subj)] : PyDict)
      = ([(("unit_name".data), PyVal.s un), (("unit_street_address".data), PyVal.s usa), (("unit_city_state_zip".data), PyVal.s ucsz), (("office_symbol".data), PyVal.s os), (("todays_date".data), PyVal.s dt), (("author_name".data), PyVal.s an), (("author_rank".data), PyVal.s ar), (("author_branch".data), PyVal.s ab), (("subject".data), PyVal.s subj), (("text".data), PyVal.nodes (PyNode.ofList ((t0 :: rest).map PyNode.str)))] : PyDict) := rfl
  simp only [hdset, hvmf, hfd]

theorem c5_amended_witness :
    MemoModel.from_text (MemoModel.to_amd (c5Family ("4th Engineer Battalion".data)
        ("588 Wetzel Road".data) ("Colorado Springs, CO 80904".data) ("ABC-DEF-GH".data)
        ("Army markdown".data) ("Alice Smith".data) ("1LT".data) ("EN".data)
        ("13 May 2022".data) (("This memo is a demo.".data) :: [("Point of contact is the undersigned.".data)])))
      = Except.ok (c5Family ("4th Engineer Battalion".data)
        ("588 Wetzel Road".data) ("Colorado Springs, CO 80904".data) ("ABC-DEF-GH".data)
        ("Army markdown".data) ("Alice Smith".data) ("1LT".data) ("EN".data)
        ("13 May 2022".data) (("This memo is a demo.".data) :: [("Point of contact is the undersigned.".data)])) :=
  c5_amended ("4th Engineer Battalion".data) ("588 Wetzel Road".data)
    ("Colorado Springs, CO 80904".data) ("ABC-DEF-GH".data) ("Army markdown".data)
    ("Alice Smith".data) ("1LT".data) ("EN".data) ("13 May 2022".data)
    ("This memo is a demo.".data) [("Point of contact is the undersigned.".data)]
    (by decide) (by decide) (by decide) (by decide) (by decide) (by decide)
